import Mathlib

/-!
Shallow embedding of `src/Hotel_Management_System.py` (Room, Guest,
Reservation, Hotel and its operations).  Dates are modelled as `Int` day
ordinals, so Python's `(d2 - d1).days` becomes plain subtraction; money is
modelled as `Rat`.  Python `dict`s (which preserve insertion order) are
modelled as lists together with dict-style insertion `dictInsert*`
(overwrite the entry holding the key if present, else append) and
first-match lookup `find?` — for key-unique lists this agrees with Python
dict semantics.  Each mutating method returns `Hotel × Except Err α`; the
source raises `ValueError` before performing any mutation, and the model
mirrors that order, returning the untouched state alongside the error.
Error kinds classify the `ValueError` messages of the source
(duplicate-key, not-found, conflict, invalid-state).
-/

namespace HotelMS

structure Room where
  room_number : String
  room_type : String
  price_per_night : Rat
  is_occupied : Bool
deriving DecidableEq

structure Guest where
  guest_id : String
  name : String
  email : String
  phone : String
deriving DecidableEq

/-- In the source a `Reservation` holds object references to its `Guest` and
`Room`; those objects are exactly the registry entries of the owning
`Hotel` (aliasing), so the model refers to them by key instead. -/
structure Reservation where
  reservation_id : String
  guest_id : String
  room_number : String
  check_in_date : Int
  check_out_date : Int
  is_checked_in : Bool
  is_checked_out : Bool
  services_used : List (String × Rat)
  total_charges : Rat
deriving DecidableEq

inductive Err where
  | duplicateKey
  | notFound
  | conflict
  | invalidState
deriving DecidableEq

deriving instance DecidableEq for Except

structure Hotel where
  name : String
  rooms : List Room
  guests : List Guest
  reservations : List Reservation
  next_reservation_id : Nat
deriving DecidableEq

def Hotel.init (name : String) : Hotel :=
  ⟨name, [], [], [], 1⟩

def findRoomL (l : List Room) (rn : String) : Option Room :=
  l.find? (fun x => x.room_number == rn)

def findGuestL (l : List Guest) (gid : String) : Option Guest :=
  l.find? (fun x => x.guest_id == gid)

def findResL (l : List Reservation) (rid : String) : Option Reservation :=
  l.find? (fun x => x.reservation_id == rid)

def updateRes (l : List Reservation) (rid : String) (f : Reservation → Reservation) :
    List Reservation :=
  l.map (fun x => if x.reservation_id == rid then f x else x)

def updateRoom (l : List Room) (rn : String) (f : Room → Room) : List Room :=
  l.map (fun x => if x.room_number == rn then f x else x)

/-- Python dict assignment `d[k] = v`: overwrite the entry with key `k` when
present, else append at the end (dicts preserve insertion order). -/
def dictInsertRoom (l : List Room) (rm : Room) : List Room :=
  if l.any (fun x => x.room_number == rm.room_number) then
    updateRoom l rm.room_number (fun _ => rm)
  else l ++ [rm]

def dictInsertGuest (l : List Guest) (g : Guest) : List Guest :=
  if l.any (fun x => x.guest_id == g.guest_id) then
    l.map (fun x => if x.guest_id == g.guest_id then g else x)
  else l ++ [g]

def dictInsertRes (l : List Reservation) (r : Reservation) : List Reservation :=
  if l.any (fun x => x.reservation_id == r.reservation_id) then
    updateRes l r.reservation_id (fun _ => r)
  else l ++ [r]

/-- The reservation id string built by `make_reservation`:
`f"RES-{self.next_reservation_id}"`. -/
def mkResId (n : Nat) : String :=
  "RES-" ++ Nat.repr n

/-- Sum of the prices in `services_used`
(`sum(price for _, price in self.services_used)`). -/
def sumPrices (l : List (String × Rat)) : Rat :=
  (l.map Prod.snd).sum

/-- Model of `Reservation.calculate_total_charges`: nights times the
room's nightly price plus the accumulated service charges.  The room price
is passed in because the source reads it through the aliased `self.room`. -/
def calcTotal (price : Rat) (r : Reservation) : Rat :=
  price * ((r.check_out_date - r.check_in_date : Int) : Rat) + sumPrices r.services_used

def Hotel.add_room (h : Hotel) (rm : Room) : Hotel × Except Err Unit :=
  if h.rooms.any (fun x => x.room_number == rm.room_number) then
    (h, .error .duplicateKey)
  else
    ({h with rooms := dictInsertRoom h.rooms rm}, .ok ())

def Hotel.add_guest (h : Hotel) (g : Guest) : Hotel × Except Err Unit :=
  if h.guests.any (fun x => x.guest_id == g.guest_id) then
    (h, .error .duplicateKey)
  else
    ({h with guests := dictInsertGuest h.guests g}, .ok ())

/-- The availability scan of `make_reservation` (lines 88-92): some existing
reservation on the requested room satisfies
`check_in_date < reservation.check_out_date and
 check_out_date > reservation.check_in_date`. -/
def hasDateConflict (resv : List Reservation) (rn : String) (ci co : Int) : Bool :=
  resv.any (fun e =>
    e.room_number == rn && decide (ci < e.check_out_date) && decide (co > e.check_in_date))

def Hotel.make_reservation (h : Hotel) (gid rn : String) (ci co : Int) :
    Hotel × Except Err Reservation :=
  match findGuestL h.guests gid with
  | none => (h, .error .notFound)
  | some _ =>
    match findRoomL h.rooms rn with
    | none => (h, .error .notFound)
    | some room =>
      if room.is_occupied then (h, .error .conflict)
      else if hasDateConflict h.reservations rn ci co then (h, .error .conflict)
      else
        let res : Reservation :=
          ⟨mkResId h.next_reservation_id, gid, rn, ci, co, false, false, [],
            room.price_per_night * ((co - ci : Int) : Rat)⟩
        ({h with
            reservations := dictInsertRes h.reservations res,
            next_reservation_id := h.next_reservation_id + 1},
          .ok res)

def Hotel.check_in (h : Hotel) (rid : String) : Hotel × Except Err Unit :=
  match findResL h.reservations rid with
  | none => (h, .error .notFound)
  | some r =>
    if r.is_checked_in then (h, .error .invalidState)
    else
      ({h with
          reservations := updateRes h.reservations rid
            (fun x => {x with is_checked_in := true}),
          rooms := updateRoom h.rooms r.room_number
            (fun rm => {rm with is_occupied := true})},
        .ok ())

/-- In the source `reservation.room` is an alias of the registry entry, so
the room lookup below cannot fail on any state the program builds; the
model surfaces that impossible case as a `notFound` error. -/
def Hotel.check_out (h : Hotel) (rid : String) : Hotel × Except Err Unit :=
  match findResL h.reservations rid with
  | none => (h, .error .notFound)
  | some r =>
    if r.is_checked_in = false then (h, .error .invalidState)
    else if r.is_checked_out then (h, .error .invalidState)
    else
      match findRoomL h.rooms r.room_number with
      | none => (h, .error .notFound)
      | some room =>
        ({h with
            reservations := updateRes h.reservations rid
              (fun x => {x with
                is_checked_out := true,
                total_charges := calcTotal room.price_per_night x}),
            rooms := updateRoom h.rooms r.room_number
              (fun rm => {rm with is_occupied := false})},
          .ok ())

/-- Model of `Reservation.add_service` reached through the reservation
registry as in the CLI (menu item 8): unknown ids are reported as not-found, otherwise the
pair is appended and `total_charges` is incremented by the price. -/
def Hotel.add_service (h : Hotel) (rid svc : String) (price : Rat) :
    Hotel × Except Err Unit :=
  match findResL h.reservations rid with
  | none => (h, .error .notFound)
  | some _ =>
    ({h with
        reservations := updateRes h.reservations rid
          (fun x => {x with
            services_used := x.services_used ++ [(svc, price)],
            total_charges := x.total_charges + price})},
      .ok ())

/-- The accumulator loop of `get_available_rooms`: walk the rooms in
registry order, append a room when it is not occupied and no reservation on
it overlaps the requested interval (the inner loop with `break` is the
`any` scan). -/
def availLoop (resv : List Reservation) (ci co : Int) :
    List Room → List Room → List Room
  | [], acc => acc
  | room :: rest, acc =>
    let isAvail : Bool :=
      if room.is_occupied then false
      else !(hasDateConflict resv room.room_number ci co)
    if isAvail then availLoop resv ci co rest (acc ++ [room])
    else availLoop resv ci co rest acc

def Hotel.get_available_rooms (h : Hotel) (ci co : Int) : List Room :=
  availLoop h.reservations ci co h.rooms []

/-- The record written by `save_to_file` for one reservation. -/
structure ResRec where
  reservation_id : String
  guest_id : String
  room_number : String
  check_in_date : Int
  check_out_date : Int
  is_checked_in : Bool
  is_checked_out : Bool
  services_used : List (String × Rat)
  total_charges : Rat
deriving DecidableEq

/-- The structured record produced by `save_to_file`; room and guest rows
carry exactly the fields of `Room` and `Guest`. -/
structure SaveData where
  name : String
  next_reservation_id : Nat
  rooms : List Room
  guests : List Guest
  reservations : List ResRec
deriving DecidableEq

def resToRec (r : Reservation) : ResRec :=
  ⟨r.reservation_id, r.guest_id, r.room_number, r.check_in_date, r.check_out_date,
    r.is_checked_in, r.is_checked_out, r.services_used, r.total_charges⟩

/-- In `load_from_file` each reservation is built through the constructor
and then overwritten in flags, service list and total from the record; the net
result is the record's fields verbatim. -/
def recToRes (r : ResRec) : Reservation :=
  ⟨r.reservation_id, r.guest_id, r.room_number, r.check_in_date, r.check_out_date,
    r.is_checked_in, r.is_checked_out, r.services_used, r.total_charges⟩

def Hotel.save (h : Hotel) : SaveData :=
  ⟨h.name, h.next_reservation_id, h.rooms, h.guests, h.reservations.map resToRec⟩

/-- The reservation loop of `load_from_file`: look up the guest, then the
room, in the freshly rebuilt registries (`hotel.guests[...]`,
`hotel.rooms[...]`; a missing key is the NotFound failure of the load
contract), then insert the rebuilt reservation by its id. -/
def loadResList (guests : List Guest) (rooms : List Room) :
    List ResRec → List Reservation → Except Err (List Reservation)
  | [], acc => .ok acc
  | rec :: rest, acc =>
    match findGuestL guests rec.guest_id with
    | none => .error .notFound
    | some _ =>
      match findRoomL rooms rec.room_number with
      | none => .error .notFound
      | some _ => loadResList guests rooms rest (dictInsertRes acc (recToRes rec))

def Hotel.load (d : SaveData) : Except Err Hotel :=
  let rooms := List.foldl dictInsertRoom [] d.rooms
  let guests := List.foldl dictInsertGuest [] d.guests
  match loadResList guests rooms d.reservations [] with
  | .error e => .error e
  | .ok resv => .ok ⟨d.name, rooms, guests, resv, d.next_reservation_id⟩

/-- States reachable from a fresh `Hotel` by any sequence of the six
mutating operations; a failing call returns the state unchanged, so the
closure also covers "successful sequences". -/
inductive Reachable : Hotel → Prop where
  | init : ∀ name, Reachable (Hotel.init name)
  | step_add_room : ∀ h rm, Reachable h → Reachable (h.add_room rm).1
  | step_add_guest : ∀ h g, Reachable h → Reachable (h.add_guest g).1
  | step_make_reservation : ∀ h gid rn ci co,
      Reachable h → Reachable (h.make_reservation gid rn ci co).1
  | step_check_in : ∀ h rid, Reachable h → Reachable (h.check_in rid).1
  | step_check_out : ∀ h rid, Reachable h → Reachable (h.check_out rid).1
  | step_add_service : ∀ h rid svc price,
      Reachable h → Reachable (h.add_service rid svc price).1

/-- Two reservations that share a room must fail the source's overlap test
`check_in < other.check_out and check_out > other.check_in`; this relation
is symmetric in its arguments. -/
def noOverlap (a b : Reservation) : Prop :=
  a.room_number = b.room_number →
    ¬(a.check_in_date < b.check_out_date ∧ a.check_out_date > b.check_in_date)

/-- The inductive invariant carried through every reachable state. -/
structure Inv (h : Hotel) : Prop where
  next_pos : 1 ≤ h.next_reservation_id
  ids : ∃ ks : List Nat,
    h.reservations.map Reservation.reservation_id = ks.map mkResId ∧
    ks.Pairwise (· < ·) ∧ ∀ k ∈ ks, 1 ≤ k ∧ k < h.next_reservation_id
  no_overlap : h.reservations.Pairwise noOverlap
  rooms_nodup : h.rooms.Pairwise (fun a b => a.room_number ≠ b.room_number)
  guests_nodup : h.guests.Pairwise (fun a b => a.guest_id ≠ b.guest_id)
  room_exists : ∀ r ∈ h.reservations,
    ∃ rm, findRoomL h.rooms r.room_number = some rm
  guest_exists : ∀ r ∈ h.reservations,
    ∃ g, findGuestL h.guests r.guest_id = some g
  charges : ∀ r ∈ h.reservations, ∀ rm, findRoomL h.rooms r.room_number = some rm →
    r.total_charges = rm.price_per_night *
      ((r.check_out_date - r.check_in_date : Int) : Rat) + sumPrices r.services_used
  flags : ∀ r ∈ h.reservations, r.is_checked_out = true → r.is_checked_in = true

/-- Well-formedness used by the save/load round trip: registry keys are
unique (automatic for Python dicts) and every reservation references a
guest and a room present in the registries. -/
def WF (h : Hotel) : Prop :=
  (h.rooms.map Room.room_number).Nodup ∧
  (h.guests.map Guest.guest_id).Nodup ∧
  (h.reservations.map Reservation.reservation_id).Nodup ∧
  (∀ r ∈ h.reservations, (findGuestL h.guests r.guest_id).isSome = true) ∧
  (∀ r ∈ h.reservations, (findRoomL h.rooms r.room_number).isSome = true)

/-! Concrete states used by the witness theorems, built through the
operations themselves (room "101" at 100 per night, guest "G1"). -/

def room101 : Room := ⟨"101", "Single", 100, false⟩

def guestG1 : Guest := ⟨"G1", "John Doe", "john@example.com", "555-0101"⟩

def hotelA : Hotel := ((Hotel.init "Grand Hotel").add_room room101).1

def hotelB : Hotel := (hotelA.add_guest guestG1).1

/-- After reserving room "101" for days `[1, 5)` (reservation "RES-1"). -/
def hotelC : Hotel := (hotelB.make_reservation "G1" "101" 1 5).1

/-- After the adjacent reservation `[5, 6)` (reservation "RES-2"). -/
def hotelD : Hotel := (hotelC.make_reservation "G1" "101" 5 6).1

/-- Reservation for days `[1, 3)` (two nights at 100). -/
def hotelE : Hotel := (hotelB.make_reservation "G1" "101" 1 3).1

/-- After adding service "Breakfast" at price 15 to "RES-1". -/
def hotelF : Hotel := (hotelE.add_service "RES-1" "Breakfast" 15).1

def hotelG : Hotel := (hotelF.check_in "RES-1").1

def hotelH : Hotel := (hotelG.check_out "RES-1").1

/-- The reservation "RES-1" of `hotelC`; the charge is kept in the product
form the code builds (`100 * (5 - 1)` = 400). -/
def resA : Reservation :=
  ⟨"RES-1", "G1", "101", 1, 5, false, false, [], (100 : Rat) * ((5 - 1 : Int) : Rat)⟩

/-- The reservation "RES-2" of `hotelD` (`100 * (6 - 5)` = 100). -/
def resB : Reservation :=
  ⟨"RES-2", "G1", "101", 5, 6, false, false, [], (100 : Rat) * ((6 - 5 : Int) : Rat)⟩

/-- The reservation of `hotelE` ("RES-1" on room "101" for `[1, 3)`, two
nights at 100 per night). -/
def resC : Reservation :=
  ⟨"RES-1", "G1", "101", 1, 3, false, false, [], (100 : Rat) * ((3 - 1 : Int) : Rat)⟩

/-! Injectivity of the decimal id strings.  `Nat.repr` is fuel-driven
(`Nat.toDigitsCore`), so we relate it to a fuel-free digit-list function
and prove that one injective. -/

def natChars (n : Nat) : List Char :=
  if h : n < 10 then [Nat.digitChar n]
  else natChars (n / 10) ++ [Nat.digitChar (n % 10)]
termination_by n
decreasing_by
  exact Nat.div_lt_self (by omega) (by omega)

lemma natChars_lt (n : Nat) (h : n < 10) : natChars n = [Nat.digitChar n] := by
  rw [natChars]
  exact dif_pos h

lemma natChars_ge (n : Nat) (h : ¬ n < 10) :
    natChars n = natChars (n / 10) ++ [Nat.digitChar (n % 10)] := by
  rw [natChars]
  exact dif_neg h

lemma natChars_ne_nil (n : Nat) : natChars n ≠ [] := by
  by_cases h : n < 10
  · rw [natChars_lt n h]; simp
  · rw [natChars_ge n h]; simp

lemma toDigitsCore_eq_natChars :
    ∀ (f n : Nat) (l : List Char), n < f →
      Nat.toDigitsCore 10 f n l = natChars n ++ l := by
  intro f
  induction f with
  | zero => intro n l h; omega
  | succ f ih =>
    intro n l h
    by_cases hdiv : n / 10 = 0
    · have hn : n < 10 := by omega
      rw [Nat.toDigitsCore]
      simp only [hdiv, if_pos]
      rw [natChars, dif_pos hn, Nat.mod_eq_of_lt hn]
      simp
    · have hn : ¬ n < 10 := by omega
      have hlt : n / 10 < f := by
        have h1 : n / 10 < n := Nat.div_lt_self (by omega) (by omega)
        omega
      rw [Nat.toDigitsCore]
      simp only [hdiv, if_neg, ite_false]
      rw [ih (n / 10) (Nat.digitChar (n % 10) :: l) hlt, natChars_ge n hn]
      simp

lemma repr_eq_natChars (n : Nat) : Nat.repr n = (natChars n).asString := by
  rw [Nat.repr, Nat.toDigits,
    toDigitsCore_eq_natChars (n + 1) n [] (Nat.lt_succ_self n)]
  simp

lemma digitChar_inj_lt :
    ∀ m, m < 10 → ∀ n, n < 10 → Nat.digitChar m = Nat.digitChar n → m = n := by
  decide

lemma natChars_inj : ∀ m n : Nat, natChars m = natChars n → m = n := by
  intro m
  induction m using Nat.strong_induction_on with
  | _ m ih =>
    intro n hmn
    by_cases hm : m < 10 <;> by_cases hn : n < 10
    · rw [natChars_lt m hm, natChars_lt n hn] at hmn
      exact digitChar_inj_lt m hm n hn (List.singleton_injective hmn)
    · rw [natChars_lt m hm, natChars_ge n hn] at hmn
      have hlen := congrArg List.length hmn
      simp only [List.length_singleton, List.length_append] at hlen
      have hz : (natChars (n / 10)).length = 0 := by omega
      exact absurd (List.length_eq_zero.mp hz) (natChars_ne_nil (n / 10))
    · rw [natChars_ge m hm, natChars_lt n hn] at hmn
      have hlen := congrArg List.length hmn
      simp only [List.length_singleton, List.length_append] at hlen
      have hz : (natChars (m / 10)).length = 0 := by omega
      exact absurd (List.length_eq_zero.mp hz) (natChars_ne_nil (m / 10))
    · rw [natChars_ge m hm, natChars_ge n hn] at hmn
      have hparts := List.append_inj' hmn (by simp)
      have hdiv : m / 10 = n / 10 :=
        ih (m / 10) (Nat.div_lt_self (by omega) (by omega)) (n / 10) hparts.1
      have hmod : m % 10 = n % 10 := by
        have hc : Nat.digitChar (m % 10) = Nat.digitChar (n % 10) :=
          List.singleton_injective hparts.2
        exact digitChar_inj_lt (m % 10) (Nat.mod_lt m (by omega)) (n % 10)
          (Nat.mod_lt n (by omega)) hc
      have h1 := Nat.div_add_mod m 10
      have h2 := Nat.div_add_mod n 10
      omega

lemma natRepr_inj {m n : Nat} (h : Nat.repr m = Nat.repr n) : m = n := by
  rw [repr_eq_natChars, repr_eq_natChars] at h
  exact natChars_inj m n (by
    have := congrArg String.data h
    simpa [List.asString] using this)

lemma mkResId_inj {m n : Nat} (h : mkResId m = mkResId n) : m = n := by
  unfold mkResId at h
  have hdata := congrArg String.data h
  simp only [String.data_append] at hdata
  exact natRepr_inj (by
    apply String.ext
    exact List.append_cancel_left hdata)

/-! Small lemmas about the registry primitives. -/

lemma findResL_eq_some {l : List Reservation} {rid : String} {r : Reservation}
    (h : findResL l rid = some r) : r ∈ l ∧ r.reservation_id = rid := by
  unfold findResL at h
  refine ⟨List.mem_of_find?_eq_some h, ?_⟩
  have := List.find?_some h
  simpa using this

lemma findRoomL_eq_some {l : List Room} {rn : String} {rm : Room}
    (h : findRoomL l rn = some rm) : rm ∈ l ∧ rm.room_number = rn := by
  unfold findRoomL at h
  refine ⟨List.mem_of_find?_eq_some h, ?_⟩
  have := List.find?_some h
  simpa using this

lemma findGuestL_eq_some {l : List Guest} {gid : String} {g : Guest}
    (h : findGuestL l gid = some g) : g ∈ l ∧ g.guest_id = gid := by
  unfold findGuestL at h
  refine ⟨List.mem_of_find?_eq_some h, ?_⟩
  have := List.find?_some h
  simpa using this

lemma updateRes_id_map {l : List Reservation} {rid : String}
    {f : Reservation → Reservation}
    (hf : ∀ x, (f x).reservation_id = x.reservation_id) :
    (updateRes l rid f).map Reservation.reservation_id =
      l.map Reservation.reservation_id := by
  induction l with
  | nil => rfl
  | cons a t ih =>
    simp only [updateRes, List.map_cons] at ih ⊢
    congr 1
    by_cases hx : (a.reservation_id == rid) = true <;> simp [hx, hf]

lemma findResL_updateRes {l : List Reservation} {rid rid2 : String}
    {f : Reservation → Reservation}
    (hf : ∀ x, (f x).reservation_id = x.reservation_id) :
    findResL (updateRes l rid f) rid2 =
      (findResL l rid2).map (fun x => if x.reservation_id == rid then f x else x) := by
  induction l with
  | nil => rfl
  | cons a t ih =>
    unfold findResL updateRes at ih ⊢
    simp only [List.map_cons]
    have hid : (if (a.reservation_id == rid) = true then f a else a).reservation_id
        = a.reservation_id := by
      split
      · exact hf a
      · rfl
    cases h2 : (a.reservation_id == rid2) with
    | true =>
      have hsome : List.find? (fun x => x.reservation_id == rid2) (a :: t) = some a :=
        List.find?_cons_of_pos _ h2
      rw [List.find?_cons_of_pos _ (show _ by rw [hid]; exact h2), hsome]
      rfl
    | false =>
      have hskip : List.find? (fun x => x.reservation_id == rid2) (a :: t) =
          List.find? (fun x => x.reservation_id == rid2) t :=
        List.find?_cons_of_neg _ (by simp [h2])
      rw [List.find?_cons_of_neg _ (show _ by rw [hid]; simp [h2]), hskip]
      exact ih

lemma findRoomL_updateRoom {l : List Room} {rn rn2 : String} {f : Room → Room}
    (hf : ∀ x, (f x).room_number = x.room_number) :
    findRoomL (updateRoom l rn f) rn2 =
      (findRoomL l rn2).map (fun x => if x.room_number == rn then f x else x) := by
  induction l with
  | nil => rfl
  | cons a t ih =>
    unfold findRoomL updateRoom at ih ⊢
    simp only [List.map_cons]
    have hid : (if (a.room_number == rn) = true then f a else a).room_number
        = a.room_number := by
      split
      · exact hf a
      · rfl
    cases h2 : (a.room_number == rn2) with
    | true =>
      have hsome : List.find? (fun x => x.room_number == rn2) (a :: t) = some a :=
        List.find?_cons_of_pos _ h2
      rw [List.find?_cons_of_pos _ (show _ by rw [hid]; exact h2), hsome]
      rfl
    | false =>
      have hskip : List.find? (fun x => x.room_number == rn2) (a :: t) =
          List.find? (fun x => x.room_number == rn2) t :=
        List.find?_cons_of_neg _ (by simp [h2])
      rw [List.find?_cons_of_neg _ (show _ by rw [hid]; simp [h2]), hskip]
      exact ih

lemma dictInsertRes_fresh {l : List Reservation} {r : Reservation}
    (h : l.any (fun x => x.reservation_id == r.reservation_id) = false) :
    dictInsertRes l r = l ++ [r] := by
  simp [dictInsertRes, h]

lemma dictInsertRoom_fresh {l : List Room} {rm : Room}
    (h : l.any (fun x => x.room_number == rm.room_number) = false) :
    dictInsertRoom l rm = l ++ [rm] := by
  simp [dictInsertRoom, h]

lemma dictInsertGuest_fresh {l : List Guest} {g : Guest}
    (h : l.any (fun x => x.guest_id == g.guest_id) = false) :
    dictInsertGuest l g = l ++ [g] := by
  simp [dictInsertGuest, h]

lemma findResL_updateRes_self {l : List Reservation} {rid : String} {r : Reservation}
    {f : Reservation → Reservation}
    (hf : ∀ x, (f x).reservation_id = x.reservation_id)
    (hr : findResL l rid = some r) :
    findResL (updateRes l rid f) rid = some (f r) := by
  rw [findResL_updateRes hf, hr]
  have hid : r.reservation_id = rid := (findResL_eq_some hr).2
  simp [hid]

lemma findResL_updateRes_other {l : List Reservation} {rid rid2 : String}
    {f : Reservation → Reservation}
    (hf : ∀ x, (f x).reservation_id = x.reservation_id) (hne : rid2 ≠ rid) :
    findResL (updateRes l rid f) rid2 = findResL l rid2 := by
  rw [findResL_updateRes hf]
  cases hr : findResL l rid2 with
  | none => rfl
  | some r2 =>
    have hid : r2.reservation_id = rid2 := (findResL_eq_some hr).2
    simp [hid, hne]

lemma findRoomL_updateRoom_self {l : List Room} {rn : String} {rm : Room}
    {f : Room → Room}
    (hf : ∀ x, (f x).room_number = x.room_number)
    (hr : findRoomL l rn = some rm) :
    findRoomL (updateRoom l rn f) rn = some (f rm) := by
  rw [findRoomL_updateRoom hf, hr]
  have hid : rm.room_number = rn := (findRoomL_eq_some hr).2
  simp [hid]

lemma findRoomL_updateRoom_other {l : List Room} {rn rn2 : String} {f : Room → Room}
    (hf : ∀ x, (f x).room_number = x.room_number) (hne : rn2 ≠ rn) :
    findRoomL (updateRoom l rn f) rn2 = findRoomL l rn2 := by
  rw [findRoomL_updateRoom hf]
  cases hr : findRoomL l rn2 with
  | none => rfl
  | some rm2 =>
    have hid : rm2.room_number = rn2 := (findRoomL_eq_some hr).2
    simp [hid, hne]

lemma hasDateConflict_iff (resv : List Reservation) (rn : String) (ci co : Int) :
    hasDateConflict resv rn ci co = true ↔
      ∃ e ∈ resv, e.room_number = rn ∧ ci < e.check_out_date ∧
        co > e.check_in_date := by
  unfold hasDateConflict
  simp [List.any_eq_true, Bool.and_eq_true, beq_iff_eq, decide_eq_true_eq, and_assoc]

/-! Branch equations for `check_in` and `check_out`. -/

lemma check_in_missing {h : Hotel} {rid : String}
    (hr : findResL h.reservations rid = none) :
    h.check_in rid = (h, .error .notFound) := by
  unfold Hotel.check_in
  rw [hr]

lemma check_in_already {h : Hotel} {rid : String} {r : Reservation}
    (hr : findResL h.reservations rid = some r) (hin : r.is_checked_in = true) :
    h.check_in rid = (h, .error .invalidState) := by
  unfold Hotel.check_in
  rw [hr]
  simp [hin]

lemma check_in_ok {h : Hotel} {rid : String} {r : Reservation}
    (hr : findResL h.reservations rid = some r) (hin : r.is_checked_in = false) :
    h.check_in rid =
      ({h with
          reservations := updateRes h.reservations rid
            (fun x => {x with is_checked_in := true}),
          rooms := updateRoom h.rooms r.room_number
            (fun rm => {rm with is_occupied := true})},
        .ok ()) := by
  unfold Hotel.check_in
  rw [hr]
  simp [hin]

lemma check_out_missing {h : Hotel} {rid : String}
    (hr : findResL h.reservations rid = none) :
    h.check_out rid = (h, .error .notFound) := by
  unfold Hotel.check_out
  rw [hr]

lemma check_out_not_checked_in {h : Hotel} {rid : String} {r : Reservation}
    (hr : findResL h.reservations rid = some r) (hin : r.is_checked_in = false) :
    h.check_out rid = (h, .error .invalidState) := by
  unfold Hotel.check_out
  rw [hr]
  simp [hin]

lemma check_out_already {h : Hotel} {rid : String} {r : Reservation}
    (hr : findResL h.reservations rid = some r) (hin : r.is_checked_in = true)
    (hout : r.is_checked_out = true) :
    h.check_out rid = (h, .error .invalidState) := by
  unfold Hotel.check_out
  rw [hr]
  simp [hin, hout]

lemma check_out_ok {h : Hotel} {rid : String} {r : Reservation} {room : Room}
    (hr : findResL h.reservations rid = some r) (hin : r.is_checked_in = true)
    (hout : r.is_checked_out = false)
    (hrm : findRoomL h.rooms r.room_number = some room) :
    h.check_out rid =
      ({h with
          reservations := updateRes h.reservations rid
            (fun x => {x with
              is_checked_out := true,
              total_charges := calcTotal room.price_per_night x}),
          rooms := updateRoom h.rooms r.room_number
            (fun rm => {rm with is_occupied := false})},
        .ok ()) := by
  unfold Hotel.check_out
  rw [hr]
  simp [hin, hout, hrm]

lemma make_reservation_ok {h : Hotel} {gid rn : String} {ci co : Int}
    {g : Guest} {room : Room}
    (hg : findGuestL h.guests gid = some g)
    (hr : findRoomL h.rooms rn = some room)
    (hocc : room.is_occupied = false)
    (hc : hasDateConflict h.reservations rn ci co = false) :
    h.make_reservation gid rn ci co =
      ({h with
          reservations := dictInsertRes h.reservations
            ⟨mkResId h.next_reservation_id, gid, rn, ci, co, false, false, [],
              room.price_per_night * ((co - ci : Int) : Rat)⟩,
          next_reservation_id := h.next_reservation_id + 1},
        .ok ⟨mkResId h.next_reservation_id, gid, rn, ci, co, false, false, [],
          room.price_per_night * ((co - ci : Int) : Rat)⟩) := by
  unfold Hotel.make_reservation
  rw [hg, hr]
  simp [hocc, hc]

/-- C5: every operation that fails a validation check returns the hotel
state unchanged — rooms, guests, reservations and the reservation counter;
in particular a failed `make_reservation` does not consume an id.  The
definitions mirror the source's order of checks before mutations, so this
records that every `raise` happens before any state is touched. -/
theorem C5_failed_operations_are_noops : ∀ h : Hotel,
    (∀ rm e, (h.add_room rm).2 = .error e → (h.add_room rm).1 = h) ∧
    (∀ g e, (h.add_guest g).2 = .error e → (h.add_guest g).1 = h) ∧
    (∀ gid rn ci co e, (h.make_reservation gid rn ci co).2 = .error e →
      (h.make_reservation gid rn ci co).1 = h) ∧
    (∀ rid e, (h.check_in rid).2 = .error e → (h.check_in rid).1 = h) ∧
    (∀ rid e, (h.check_out rid).2 = .error e → (h.check_out rid).1 = h) ∧
    (∀ rid svc price e, (h.add_service rid svc price).2 = .error e →
      (h.add_service rid svc price).1 = h) := by
  intro h
  refine ⟨?_, ?_, ?_, ?_, ?_, ?_⟩
  · intro rm e he
    unfold Hotel.add_room at he ⊢
    by_cases hdup : h.rooms.any (fun x => x.room_number == rm.room_number) <;>
      simp [hdup] at he ⊢
  · intro g e he
    unfold Hotel.add_guest at he ⊢
    by_cases hdup : h.guests.any (fun x => x.guest_id == g.guest_id) <;>
      simp [hdup] at he ⊢
  · intro gid rn ci co e he
    unfold Hotel.make_reservation at he ⊢
    cases hg : findGuestL h.guests gid with
    | none => simp [hg]
    | some g =>
      cases hr : findRoomL h.rooms rn with
      | none => simp [hg, hr]
      | some room =>
        simp only [hg, hr] at he ⊢
        cases hocc : room.is_occupied with
        | true => simp [hocc]
        | false =>
          cases hc : hasDateConflict h.reservations rn ci co with
          | true => simp [hocc, hc]
          | false => simp [hocc, hc] at he
  · intro rid e he
    cases hr : findResL h.reservations rid with
    | none => rw [check_in_missing hr]
    | some r =>
      cases hin : r.is_checked_in with
      | true => rw [check_in_already hr hin]
      | false => rw [check_in_ok hr hin] at he; simp at he
  · intro rid e he
    cases hr : findResL h.reservations rid with
    | none => rw [check_out_missing hr]
    | some r =>
      cases hin : r.is_checked_in with
      | false => rw [check_out_not_checked_in hr hin]
      | true =>
        cases hout : r.is_checked_out with
        | true => rw [check_out_already hr hin hout]
        | false =>
          cases hrm : findRoomL h.rooms r.room_number with
          | none =>
            unfold Hotel.check_out
            rw [hr]
            simp [hin, hout, hrm]
          | some room => rw [check_out_ok hr hin hout hrm] at he; simp at he
  · intro rid svc price e he
    unfold Hotel.add_service at he ⊢
    cases hr : findResL h.reservations rid with
    | none => simp [hr]
    | some r => simp [hr] at he

/-- C5 witness: adding room "101" twice fails with a duplicate-key error
and leaves the state exactly `hotelA`. -/
theorem C5_witness :
    (hotelA.add_room room101).2 = .error .duplicateKey ∧
    (hotelA.add_room room101).1 = hotelA :=
  ⟨by decide,
    (C5_failed_operations_are_noops hotelA).1 room101 .duplicateKey (by decide)⟩

/-- C9: `make_reservation` never validates the date order: with a known
guest, a known unoccupied room and no overlap conflict, a request with
`checkOut ≤ checkIn` succeeds and the created reservation's initial
`total_charges = price_per_night * (checkOut - checkIn)` is nonpositive
whenever the nightly price is nonnegative. -/
theorem C9_no_date_order_validation :
    ∀ (h : Hotel) (gid rn : String) (ci co : Int) (g : Guest) (room : Room),
    findGuestL h.guests gid = some g →
    findRoomL h.rooms rn = some room →
    room.is_occupied = false →
    hasDateConflict h.reservations rn ci co = false →
    co ≤ ci →
    (h.make_reservation gid rn ci co).2 =
      .ok ⟨mkResId h.next_reservation_id, gid, rn, ci, co, false, false, [],
        room.price_per_night * ((co - ci : Int) : Rat)⟩ ∧
    (0 ≤ room.price_per_night →
      room.price_per_night * ((co - ci : Int) : Rat) ≤ 0) := by
  intro h gid rn ci co g room hg hr hocc hc hle
  constructor
  · unfold Hotel.make_reservation
    rw [hg, hr]
    simp [hocc, hc]
  · intro hp
    have hnp : ((co - ci : Int) : Rat) ≤ 0 := by
      have : (co - ci : Int) ≤ 0 := by omega
      exact_mod_cast this
    exact mul_nonpos_iff.mpr (Or.inl ⟨hp, hnp⟩)

/-- C9 witness: in `hotelB` a reservation for `[5, 3)` (checkOut before
checkIn) succeeds and carries total charges `100 * (3 - 5) = -200 ≤ 0`. -/
theorem C9_witness :
    (hotelB.make_reservation "G1" "101" 5 3).2 =
      .ok ⟨mkResId 1, "G1", "101", 5, 3, false, false, [],
        (100 : Rat) * ((3 - 5 : Int) : Rat)⟩ ∧
    ((0 : Rat) ≤ 100 → (100 : Rat) * ((3 - 5 : Int) : Rat) ≤ 0) :=
  C9_no_date_order_validation hotelB "G1" "101" 5 3 guestG1 room101
    (by decide) (by decide) (by decide) (by decide) (by decide)

/-- C2: `make_reservation` fails exactly as described: NotFound iff the
guest id or room number is unknown; Conflict iff guest and room are known
and either the room's `is_occupied` flag is set (independent of the dates)
or the requested interval overlaps an existing reservation on that room
under `checkIn < existing.checkOut ∧ checkOut > existing.checkIn`; success
in every remaining case (so an exactly adjacent request passes the overlap
scan).  The final conjunct spells out the overlap scan. -/
theorem C2_make_reservation_failure_cases :
    ∀ (h : Hotel) (gid rn : String) (ci co : Int),
    ((h.make_reservation gid rn ci co).2 = .error .notFound ↔
      findGuestL h.guests gid = none ∨ findRoomL h.rooms rn = none) ∧
    ((h.make_reservation gid rn ci co).2 = .error .conflict ↔
      findGuestL h.guests gid ≠ none ∧ ∃ room, findRoomL h.rooms rn = some room ∧
        (room.is_occupied = true ∨ hasDateConflict h.reservations rn ci co = true)) ∧
    ((∃ r, (h.make_reservation gid rn ci co).2 = .ok r) ↔
      findGuestL h.guests gid ≠ none ∧ ∃ room, findRoomL h.rooms rn = some room ∧
        room.is_occupied = false ∧ hasDateConflict h.reservations rn ci co = false) ∧
    (hasDateConflict h.reservations rn ci co = true ↔
      ∃ e ∈ h.reservations, e.room_number = rn ∧ ci < e.check_out_date ∧
        co > e.check_in_date) := by
  intro h gid rn ci co
  refine ⟨?_, ?_, ?_, hasDateConflict_iff h.reservations rn ci co⟩ <;>
    unfold Hotel.make_reservation <;>
    cases hg : findGuestL h.guests gid with
  | none => simp [hg]
  | some g =>
    cases hr : findRoomL h.rooms rn with
    | none => simp [hr]
    | some room =>
      cases hocc : room.is_occupied with
      | true => simp [hocc]
      | false =>
        cases hc : hasDateConflict h.reservations rn ci co with
        | true => simp [hocc, hc]
        | false => simp [hocc, hc]

/-- C2 witness, the scenario from the spec: with "RES-1" on room "101" for
`[1, 5)`, a request for `[4, 6)` fails with Conflict (shared boundary day)
while the exactly adjacent request `[5, 6)` succeeds. -/
theorem C2_witness :
    (hotelC.make_reservation "G1" "101" 4 6).2 = .error .conflict ∧
    ∃ r, (hotelC.make_reservation "G1" "101" 5 6).2 = .ok r :=
  ⟨((C2_make_reservation_failure_cases hotelC "G1" "101" 4 6).2.1).mpr
      (by refine ⟨by decide, ⟨room101, by decide, Or.inr (by decide)⟩⟩),
    ((C2_make_reservation_failure_cases hotelC "G1" "101" 5 6).2.2.1).mpr
      (by refine ⟨by decide, ⟨room101, by decide, by decide, by decide⟩⟩)⟩

lemma availLoop_eq (resv : List Reservation) (ci co : Int) :
    ∀ (l acc : List Room),
    availLoop resv ci co l acc =
      acc ++ l.filter (fun room => !room.is_occupied &&
        !(hasDateConflict resv room.room_number ci co)) := by
  intro l
  induction l with
  | nil => intro acc; simp [availLoop]
  | cons a t ih =>
    intro acc
    cases hocc : a.is_occupied with
    | true => simp [availLoop, hocc, ih, List.filter_cons]
    | false =>
      cases hc : hasDateConflict resv a.room_number ci co with
      | true => simp [availLoop, hocc, hc, ih, List.filter_cons]
      | false => simp [availLoop, hocc, hc, ih, List.filter_cons]

/-- C6: `get_available_rooms` returns exactly the rooms of the registry, in
registry (insertion) order, that are not occupied and have no reservation
overlapping the requested interval under the half-open test; as a pure
function of the state it modifies nothing. -/
theorem C6_get_available_rooms_spec : ∀ (h : Hotel) (ci co : Int),
    h.get_available_rooms ci co =
      h.rooms.filter (fun room => !room.is_occupied &&
        !(hasDateConflict h.reservations room.room_number ci co)) ∧
    ∀ rm : Room, rm ∈ h.get_available_rooms ci co ↔
      rm ∈ h.rooms ∧ rm.is_occupied = false ∧
      ∀ e ∈ h.reservations, e.room_number = rm.room_number →
        ¬(ci < e.check_out_date ∧ co > e.check_in_date) := by
  intro h ci co
  have he : h.get_available_rooms ci co =
      h.rooms.filter (fun room => !room.is_occupied &&
        !(hasDateConflict h.reservations room.room_number ci co)) := by
    unfold Hotel.get_available_rooms
    simpa using availLoop_eq h.reservations ci co h.rooms []
  refine ⟨he, ?_⟩
  intro rm
  rw [he, List.mem_filter]
  unfold hasDateConflict
  simp only [Bool.and_eq_true, Bool.not_eq_true', List.any_eq_false,
    Bool.and_eq_true, beq_iff_eq, decide_eq_true_eq, not_and, and_assoc]

/-- C6 witness: in `hotelD` (reservations `[1, 5)` and `[5, 6)` on room
"101") the request `[10, 12)` overlaps nothing, so room "101" is listed. -/
theorem C6_witness : hotelD.get_available_rooms 10 12 = [room101] :=
  ((C6_get_available_rooms_spec hotelD 10 12).1).trans (by decide)

/-- C10: `check_in` never consults `is_occupied`: two reservations on the
same room that are both unstarted can be checked in one after the other
(the second while the room is already occupied), and checking out the
first then resets the shared room's `is_occupied` to false although the
second reservation is still checked in. -/
theorem C10_check_in_ignores_occupancy :
    ∀ (h : Hotel) (rid1 rid2 : String) (r1 r2 : Reservation) (rm : Room),
    findResL h.reservations rid1 = some r1 →
    findResL h.reservations rid2 = some r2 →
    rid1 ≠ rid2 →
    r1.room_number = r2.room_number →
    r1.is_checked_in = false → r1.is_checked_out = false →
    r2.is_checked_in = false → r2.is_checked_out = false →
    findRoomL h.rooms r1.room_number = some rm →
    (h.check_in rid1).2 = .ok () ∧
    ((h.check_in rid1).1.check_in rid2).2 = .ok () ∧
    (((h.check_in rid1).1.check_in rid2).1.check_out rid1).2 = .ok () ∧
    findRoomL (((h.check_in rid1).1.check_in rid2).1.check_out rid1).1.rooms
      r1.room_number = some {rm with is_occupied := false} ∧
    findResL (((h.check_in rid1).1.check_in rid2).1.check_out rid1).1.reservations
      rid2 = some {r2 with is_checked_in := true} ∧
    ({r2 with is_checked_in := true} : Reservation).is_checked_in = true ∧
    ({r2 with is_checked_in := true} : Reservation).is_checked_out = false := by
  intro h rid1 rid2 r1 r2 rm h1 h2 hne hsame hin1 hout1 hin2 hout2 hrm
  have hfin : ∀ x : Reservation,
      (({x with is_checked_in := true} : Reservation)).reservation_id =
        x.reservation_id := fun x => rfl
  have hgin : ∀ x : Room,
      (({x with is_occupied := true} : Room)).room_number = x.room_number :=
    fun x => rfl
  have hgout : ∀ x : Room,
      (({x with is_occupied := false} : Room)).room_number = x.room_number :=
    fun x => rfl
  have e1 := check_in_ok h1 hin1
  have hres1 : (h.check_in rid1).1.reservations =
      updateRes h.reservations rid1 (fun x => {x with is_checked_in := true}) := by
    rw [e1]
  have hrooms1 : (h.check_in rid1).1.rooms =
      updateRoom h.rooms r1.room_number (fun x => {x with is_occupied := true}) := by
    rw [e1]
  have f2 : findResL (h.check_in rid1).1.reservations rid2 = some r2 := by
    rw [hres1, findResL_updateRes_other hfin (Ne.symm hne)]
    exact h2
  have e2 := check_in_ok f2 hin2
  have hres2 : ((h.check_in rid1).1.check_in rid2).1.reservations =
      updateRes (h.check_in rid1).1.reservations rid2
        (fun x => {x with is_checked_in := true}) := by
    rw [e2]
  have hrooms2 : ((h.check_in rid1).1.check_in rid2).1.rooms =
      updateRoom (h.check_in rid1).1.rooms r2.room_number
        (fun x => {x with is_occupied := true}) := by
    rw [e2]
  have f1 : findResL ((h.check_in rid1).1.check_in rid2).1.reservations rid1 =
      some {r1 with is_checked_in := true} := by
    rw [hres2, findResL_updateRes_other hfin hne, hres1,
      findResL_updateRes_self hfin h1]
  have froom2 : findRoomL ((h.check_in rid1).1.check_in rid2).1.rooms
      r1.room_number = some {rm with is_occupied := true} := by
    rw [hrooms2, hrooms1, ← hsame]
    have hinner : findRoomL
        (updateRoom h.rooms r1.room_number (fun x => {x with is_occupied := true}))
        r1.room_number = some {rm with is_occupied := true} :=
      findRoomL_updateRoom_self hgin hrm
    have houter := findRoomL_updateRoom_self hgin hinner
    exact houter
  have e3 := check_out_ok f1 rfl (show ({r1 with is_checked_in := true} :
    Reservation).is_checked_out = false from hout1) froom2
  refine ⟨by rw [e1], by rw [e2], by rw [e3], ?_, ?_, rfl, hout2⟩
  · have hroomsF : (((h.check_in rid1).1.check_in rid2).1.check_out rid1).1.rooms =
        updateRoom ((h.check_in rid1).1.check_in rid2).1.rooms r1.room_number
          (fun x => {x with is_occupied := false}) := by
      rw [e3]
    rw [hroomsF]
    have hfinal := findRoomL_updateRoom_self hgout froom2
    exact hfinal
  · have hresF : (((h.check_in rid1).1.check_in rid2).1.check_out rid1).1.reservations =
        updateRes ((h.check_in rid1).1.check_in rid2).1.reservations rid1
          (fun x => {x with
            is_checked_out := true,
            total_charges := calcTotal
              ({rm with is_occupied := true} : Room).price_per_night x}) := by
      rw [e3]
    have hstep : findResL
        (updateRes ((h.check_in rid1).1.check_in rid2).1.reservations rid1
          (fun x => {x with
            is_checked_out := true,
            total_charges := calcTotal
              ({rm with is_occupied := true} : Room).price_per_night x}))
        rid2 = findResL ((h.check_in rid1).1.check_in rid2).1.reservations rid2 :=
      findResL_updateRes_other (fun x => rfl) (Ne.symm hne)
    rw [hresF, hstep, hres2, findResL_updateRes_self hfin f2]

/-- C10 witness: in `hotelD`, reservations "RES-1" (`[1, 5)`) and "RES-2"
(`[5, 6)`) share room "101"; both check-ins succeed, checking out "RES-1"
succeeds and frees the room while "RES-2" is still checked in. -/
theorem C10_witness :
    ((hotelD.check_in "RES-1").2 = .ok () ∧
     ((hotelD.check_in "RES-1").1.check_in "RES-2").2 = .ok () ∧
     (((hotelD.check_in "RES-1").1.check_in "RES-2").1.check_out "RES-1").2 = .ok () ∧
     findRoomL (((hotelD.check_in "RES-1").1.check_in "RES-2").1.check_out "RES-1").1.rooms
       resA.room_number = some {room101 with is_occupied := false} ∧
     findResL (((hotelD.check_in "RES-1").1.check_in "RES-2").1.check_out "RES-1").1.reservations
       "RES-2" = some {resB with is_checked_in := true} ∧
     ({resB with is_checked_in := true} : Reservation).is_checked_in = true ∧
     ({resB with is_checked_in := true} : Reservation).is_checked_out = false) :=
  C10_check_in_ignores_occupancy hotelD "RES-1" "RES-2" resA resB room101
    (by rfl) (by rfl) (by decide) (by decide) (by decide) (by decide)
    (by decide) (by decide) (by decide)

/-! Supporting lemmas for the reachability invariant. -/

lemma noOverlap_symm {a b : Reservation} (hab : noOverlap a b) : noOverlap b a := by
  unfold noOverlap at *
  intro hroom hover
  exact hab hroom.symm (by omega)

lemma findRoomL_append_left {l l2 : List Room} {rn : String} {rm : Room}
    (h : findRoomL l rn = some rm) : findRoomL (l ++ l2) rn = some rm := by
  unfold findRoomL at *
  rw [List.find?_append, h]
  rfl

lemma findGuestL_append_left {l l2 : List Guest} {gid : String} {g : Guest}
    (h : findGuestL l gid = some g) : findGuestL (l ++ l2) gid = some g := by
  unfold findGuestL at *
  rw [List.find?_append, h]
  rfl

lemma sumPrices_append (l : List (String × Rat)) (p : String × Rat) :
    sumPrices (l ++ [p]) = sumPrices l + p.2 := by
  simp [sumPrices]

/-- Distinctness of the reservation id strings, extracted from the `ids`
field of the invariant. -/
lemma ids_pairwise_ne {h : Hotel} (inv : Inv h) :
    h.reservations.Pairwise (fun a b => a.reservation_id ≠ b.reservation_id) := by
  obtain ⟨ks, hmap, hlt, _⟩ := inv.ids
  have hne : (h.reservations.map Reservation.reservation_id).Pairwise (· ≠ ·) := by
    rw [hmap]
    refine List.Pairwise.map _ ?_ hlt
    intro a b hab heq
    exact absurd (mkResId_inj heq) (by omega)
  exact (List.pairwise_map).mp hne

/-- The id that `make_reservation` is about to use does not occur among the
existing reservations. -/
lemma fresh_id {h : Hotel} (inv : Inv h) :
    h.reservations.any
      (fun x => x.reservation_id == mkResId h.next_reservation_id) = false := by
  rw [List.any_eq_false]
  intro x hx hbeq
  obtain ⟨ks, hmap, _, hbound⟩ := inv.ids
  have hmem : x.reservation_id ∈ ks.map mkResId := by
    rw [← hmap]
    exact List.mem_map_of_mem _ hx
  obtain ⟨k, hk, hkeq⟩ := List.mem_map.mp hmem
  have heq : x.reservation_id = mkResId h.next_reservation_id := by
    simpa using hbeq
  have : k = h.next_reservation_id := mkResId_inj (hkeq.trans heq)
  have := (hbound k hk).2
  omega

/-- The element found by `findResL` is the only member carrying its id when
ids are pairwise distinct. -/
lemma mem_eq_of_findResL {l : List Reservation} {rid : String} {r y : Reservation}
    (hnd : l.Pairwise (fun a b => a.reservation_id ≠ b.reservation_id))
    (hfind : findResL l rid = some r) (hy : y ∈ l) (hid : y.reservation_id = rid) :
    y = r := by
  induction l with
  | nil => cases hy
  | cons a t ih =>
    rw [List.pairwise_cons] at hnd
    unfold findResL at hfind
    cases ha : (a.reservation_id == rid) with
    | true =>
      have hsome : List.find? (fun x : Reservation => x.reservation_id == rid)
          (a :: t) = some a := List.find?_cons_of_pos _ ha
      rw [hsome] at hfind
      have har : a = r := by injection hfind
      cases List.mem_cons.mp hy with
      | inl h => exact h.trans har
      | inr h =>
        exact absurd hid (by
          have := hnd.1 y h
          have ha2 : a.reservation_id = rid := by simpa using ha
          rw [← ha2]
          exact fun hcon => this hcon.symm)
    | false =>
      have hskip : List.find? (fun x : Reservation => x.reservation_id == rid)
          (a :: t) = List.find? (fun x : Reservation => x.reservation_id == rid) t :=
        List.find?_cons_of_neg _ (by simp [ha])
      rw [hskip] at hfind
      cases List.mem_cons.mp hy with
      | inl h =>
        subst h
        exact absurd hid (by simpa using ha)
      | inr h => exact ih hnd.2 hfind h

/-- Updating reservations through a function that keeps room and dates
intact preserves the pairwise no-overlap property. -/
lemma pairwise_noOverlap_updateRes {l : List Reservation} {rid : String}
    {f : Reservation → Reservation}
    (hf : ∀ x, (f x).room_number = x.room_number ∧
      (f x).check_in_date = x.check_in_date ∧
      (f x).check_out_date = x.check_out_date)
    (hp : l.Pairwise noOverlap) : (updateRes l rid f).Pairwise noOverlap := by
  unfold updateRes
  refine List.Pairwise.map _ ?_ hp
  intro a b hab
  have hfields : ∀ x : Reservation,
      ((if x.reservation_id == rid then f x else x)).room_number = x.room_number ∧
      ((if x.reservation_id == rid then f x else x)).check_in_date = x.check_in_date ∧
      ((if x.reservation_id == rid then f x else x)).check_out_date =
        x.check_out_date := by
    intro x
    by_cases hx : (x.reservation_id == rid) = true <;> simp [hx, hf]
  unfold noOverlap at hab ⊢
  rw [(hfields a).1, (hfields b).1, (hfields a).2.1, (hfields a).2.2,
    (hfields b).2.1, (hfields b).2.2]
  exact hab

/-- Updating rooms through a number-preserving function keeps the room
numbers pairwise distinct. -/
lemma pairwise_ne_updateRoom {l : List Room} {rn : String} {f : Room → Room}
    (hf : ∀ x, (f x).room_number = x.room_number)
    (hp : l.Pairwise (fun a b => a.room_number ≠ b.room_number)) :
    (updateRoom l rn f).Pairwise (fun a b => a.room_number ≠ b.room_number) := by
  unfold updateRoom
  refine List.Pairwise.map _ ?_ hp
  intro a b hab
  have ha : ∀ x : Room,
      ((if x.room_number == rn then f x else x)).room_number = x.room_number := by
    intro x
    by_cases hx : (x.room_number == rn) = true <;> simp [hx, hf]
  rw [ha a, ha b]
  exact hab

lemma inv_init (name : String) : Inv (Hotel.init name) := by
  refine ⟨?_, ⟨[], ?_, ?_, ?_⟩, ?_, ?_, ?_, ?_, ?_, ?_, ?_⟩ <;>
    simp [Hotel.init]

lemma inv_add_room (h : Hotel) (rm : Room) (inv : Inv h) :
    Inv (h.add_room rm).1 := by
  unfold Hotel.add_room
  cases hdup : h.rooms.any (fun x => x.room_number == rm.room_number) with
  | true => simpa [hdup] using inv
  | false =>
    simp only [hdup, Bool.false_eq_true, if_false]
    rw [dictInsertRoom_fresh hdup]
    have hfresh : ∀ a ∈ h.rooms, a.room_number ≠ rm.room_number := by
      rw [List.any_eq_false] at hdup
      intro a ha
      have := hdup a ha
      simpa using this
    refine ⟨inv.next_pos, inv.ids, inv.no_overlap, ?_, inv.guests_nodup,
      ?_, inv.guest_exists, ?_, inv.flags⟩
    · rw [List.pairwise_append]
      exact ⟨inv.rooms_nodup, List.pairwise_singleton _ _,
        fun a ha b hb => by
          rw [List.mem_singleton] at hb
          rw [hb]
          exact hfresh a ha⟩
    · intro r hr
      obtain ⟨rm0, hrm0⟩ := inv.room_exists r hr
      exact ⟨rm0, findRoomL_append_left hrm0⟩
    · intro r hr rm2 hrm2
      obtain ⟨rm0, hrm0⟩ := inv.room_exists r hr
      have : findRoomL (h.rooms ++ [rm]) r.room_number = some rm0 :=
        findRoomL_append_left hrm0
      rw [this] at hrm2
      injection hrm2 with hrm2
      rw [← hrm2]
      exact inv.charges r hr rm0 hrm0

lemma inv_add_guest (h : Hotel) (g : Guest) (inv : Inv h) :
    Inv (h.add_guest g).1 := by
  unfold Hotel.add_guest
  cases hdup : h.guests.any (fun x => x.guest_id == g.guest_id) with
  | true => simpa [hdup] using inv
  | false =>
    simp only [hdup, Bool.false_eq_true, if_false]
    rw [dictInsertGuest_fresh hdup]
    have hfresh : ∀ a ∈ h.guests, a.guest_id ≠ g.guest_id := by
      rw [List.any_eq_false] at hdup
      intro a ha
      have := hdup a ha
      simpa using this
    refine ⟨inv.next_pos, inv.ids, inv.no_overlap, inv.rooms_nodup, ?_,
      inv.room_exists, ?_, inv.charges, inv.flags⟩
    · rw [List.pairwise_append]
      exact ⟨inv.guests_nodup, List.pairwise_singleton _ _,
        fun a ha b hb => by
          rw [List.mem_singleton] at hb
          rw [hb]
          exact hfresh a ha⟩
    · intro r hr
      obtain ⟨g0, hg0⟩ := inv.guest_exists r hr
      exact ⟨g0, findGuestL_append_left hg0⟩

lemma inv_extend (h : Hotel) (gid rn : String) (ci co : Int) (g : Guest)
    (room : Room) (inv : Inv h)
    (hg : findGuestL h.guests gid = some g)
    (hr : findRoomL h.rooms rn = some room)
    (hc : hasDateConflict h.reservations rn ci co = false) :
    Inv {h with
      reservations := dictInsertRes h.reservations
        ⟨mkResId h.next_reservation_id, gid, rn, ci, co, false, false, [],
          room.price_per_night * ((co - ci : Int) : Rat)⟩,
      next_reservation_id := h.next_reservation_id + 1} := by
  have hfr : h.reservations.any (fun x => x.reservation_id ==
      (⟨mkResId h.next_reservation_id, gid, rn, ci, co, false, false, [],
        room.price_per_night * ((co - ci : Int) : Rat)⟩ :
          Reservation).reservation_id) = false := fresh_id inv
  rw [dictInsertRes_fresh hfr]
  unfold hasDateConflict at hc
  rw [List.any_eq_false] at hc
  refine ⟨by dsimp only; omega, ?_, ?_, inv.rooms_nodup, inv.guests_nodup,
    ?_, ?_, ?_, ?_⟩
  · obtain ⟨ks, hmap, hord, hbound⟩ := inv.ids
    refine ⟨ks ++ [h.next_reservation_id], by simp [hmap], ?_, ?_⟩
    · rw [List.pairwise_append]
      exact ⟨hord, List.pairwise_singleton _ _,
        fun a ha b hb => by
          rw [List.mem_singleton] at hb
          rw [hb]
          exact (hbound a ha).2⟩
    · intro k hk
      dsimp only
      cases List.mem_append.mp hk with
      | inl hk2 =>
        have := hbound k hk2
        omega
      | inr hk2 =>
        rw [List.mem_singleton] at hk2
        subst hk2
        have := inv.next_pos
        omega
  · rw [List.pairwise_append]
    refine ⟨inv.no_overlap, List.pairwise_singleton _ _, ?_⟩
    intro a ha b hb
    rw [List.mem_singleton] at hb
    subst hb
    intro hroom hover
    dsimp only at hroom hover
    have := hc a ha
    simp only [Bool.and_eq_true, beq_iff_eq, decide_eq_true_eq, not_and,
      and_assoc] at this
    exact this hroom (by omega) (by omega)
  · intro r hrmem
    cases List.mem_append.mp hrmem with
    | inl hmem => exact inv.room_exists r hmem
    | inr hmem =>
      rw [List.mem_singleton] at hmem
      subst hmem
      exact ⟨room, hr⟩
  · intro r hrmem
    cases List.mem_append.mp hrmem with
    | inl hmem => exact inv.guest_exists r hmem
    | inr hmem =>
      rw [List.mem_singleton] at hmem
      subst hmem
      exact ⟨g, hg⟩
  · intro r hrmem rm2 hrm2
    cases List.mem_append.mp hrmem with
    | inl hmem => exact inv.charges r hmem rm2 hrm2
    | inr hmem =>
      rw [List.mem_singleton] at hmem
      subst hmem
      dsimp only at hrm2 ⊢
      rw [hr] at hrm2
      injection hrm2 with hrm2
      rw [← hrm2]
      simp [sumPrices]
  · intro r hrmem
    cases List.mem_append.mp hrmem with
    | inl hmem => exact inv.flags r hmem
    | inr hmem =>
      rw [List.mem_singleton] at hmem
      subst hmem
      intro hcon
      simp at hcon

lemma inv_make_reservation (h : Hotel) (gid rn : String) (ci co : Int)
    (inv : Inv h) : Inv (h.make_reservation gid rn ci co).1 := by
  unfold Hotel.make_reservation
  cases hg : findGuestL h.guests gid with
  | none => simpa [hg] using inv
  | some g =>
    cases hr : findRoomL h.rooms rn with
    | none => simpa [hg, hr] using inv
    | some room =>
      cases hocc : room.is_occupied with
      | true => simpa [hg, hr, hocc] using inv
      | false =>
        cases hc : hasDateConflict h.reservations rn ci co with
        | true => simpa [hg, hr, hocc, hc] using inv
        | false =>
          simp only [hg, hr, hocc, hc, Bool.false_eq_true, if_false]
          exact inv_extend h gid rn ci co g room inv hg hr hc

lemma mem_updateRes {l : List Reservation} {rid : String}
    {f : Reservation → Reservation} {x : Reservation}
    (hx : x ∈ updateRes l rid f) :
    ∃ y ∈ l, x = if y.reservation_id == rid then f y else y := by
  unfold updateRes at hx
  obtain ⟨y, hy, hyeq⟩ := List.mem_map.mp hx
  exact ⟨y, hy, hyeq.symm⟩

lemma inv_check_in (h : Hotel) (rid : String) (inv : Inv h) :
    Inv (h.check_in rid).1 := by
  cases hr : findResL h.reservations rid with
  | none => rw [check_in_missing hr]; exact inv
  | some r =>
    cases hin : r.is_checked_in with
    | true => rw [check_in_already hr hin]; exact inv
    | false =>
      rw [check_in_ok hr hin]
      dsimp only
      have hfin : ∀ x : Reservation,
          (({x with is_checked_in := true} : Reservation)).reservation_id =
            x.reservation_id := fun _ => rfl
      have hmapid : (updateRes h.reservations rid
            (fun x => {x with is_checked_in := true})).map
              Reservation.reservation_id =
          h.reservations.map Reservation.reservation_id := updateRes_id_map hfin
      have hfindmap : ∀ rn2 : String,
          findRoomL (updateRoom h.rooms r.room_number
            (fun x => {x with is_occupied := true})) rn2 =
          (findRoomL h.rooms rn2).map
            (fun x => if x.room_number == r.room_number then
              {x with is_occupied := true} else x) :=
        fun rn2 => findRoomL_updateRoom (fun _ => rfl)
      refine ⟨inv.next_pos, ?_, ?_, ?_, inv.guests_nodup, ?_, ?_, ?_, ?_⟩
      · obtain ⟨ks, hmap, hord, hbound⟩ := inv.ids
        exact ⟨ks, by rw [hmapid]; exact hmap, hord, hbound⟩
      · exact pairwise_noOverlap_updateRes (fun x => ⟨rfl, rfl, rfl⟩)
          inv.no_overlap
      · exact pairwise_ne_updateRoom (fun _ => rfl) inv.rooms_nodup
      · intro r2 hr2
        obtain ⟨y, hy, hyeq⟩ := mem_updateRes hr2
        have hrn : r2.room_number = y.room_number := by
          rw [hyeq]
          by_cases hx : (y.reservation_id == rid) = true <;> simp [hx]
        obtain ⟨rm0, hrm0⟩ := inv.room_exists y hy
        have hfound : findRoomL (updateRoom h.rooms r.room_number
            (fun x => {x with is_occupied := true})) y.room_number =
            some (if rm0.room_number == r.room_number then
              {rm0 with is_occupied := true} else rm0) := by
          rw [hfindmap y.room_number, hrm0]
          rfl
        exact ⟨_, by rw [hrn]; exact hfound⟩
      · intro r2 hr2
        obtain ⟨y, hy, hyeq⟩ := mem_updateRes hr2
        have hgid : r2.guest_id = y.guest_id := by
          rw [hyeq]
          by_cases hx : (y.reservation_id == rid) = true <;> simp [hx]
        rw [hgid]
        exact inv.guest_exists y hy
      · intro r2 hr2 rm2 hrm2
        obtain ⟨y, hy, hyeq⟩ := mem_updateRes hr2
        have hfields : r2.room_number = y.room_number ∧
            r2.check_in_date = y.check_in_date ∧
            r2.check_out_date = y.check_out_date ∧
            r2.services_used = y.services_used ∧
            r2.total_charges = y.total_charges := by
          rw [hyeq]
          by_cases hx : (y.reservation_id == rid) = true <;> simp [hx]
        obtain ⟨rm0, hrm0⟩ := inv.room_exists y hy
        rw [hfields.1, hfindmap y.room_number, hrm0] at hrm2
        have hprice : rm2.price_per_night = rm0.price_per_night := by
          injection hrm2 with hrm2
          rw [← hrm2]
          by_cases hx : (rm0.room_number == r.room_number) = true <;> simp [hx]
        rw [hfields.2.1, hfields.2.2.1, hfields.2.2.2.1, hfields.2.2.2.2, hprice]
        exact inv.charges y hy rm0 hrm0
      · intro r2 hr2 hout
        obtain ⟨y, hy, hyeq⟩ := mem_updateRes hr2
        by_cases hx : (y.reservation_id == rid) = true
        · rw [hyeq]
          simp [hx]
        · rw [hyeq] at hout ⊢
          simp only [hx, if_false] at hout ⊢
          exact inv.flags y hy hout

lemma inv_check_out (h : Hotel) (rid : String) (inv : Inv h) :
    Inv (h.check_out rid).1 := by
  cases hr : findResL h.reservations rid with
  | none => rw [check_out_missing hr]; exact inv
  | some r =>
    cases hin : r.is_checked_in with
    | false => rw [check_out_not_checked_in hr hin]; exact inv
    | true =>
      cases hout : r.is_checked_out with
      | true => rw [check_out_already hr hin hout]; exact inv
      | false =>
        cases hrm : findRoomL h.rooms r.room_number with
        | none =>
          unfold Hotel.check_out
          rw [hr]
          simpa [hin, hout, hrm] using inv
        | some room =>
          rw [check_out_ok hr hin hout hrm]
          dsimp only
          have hfout : ∀ x : Reservation,
              (({x with
                is_checked_out := true,
                total_charges := calcTotal room.price_per_night x} :
                  Reservation)).reservation_id = x.reservation_id := fun _ => rfl
          have hmapid : (updateRes h.reservations rid
                (fun x => {x with
                  is_checked_out := true,
                  total_charges := calcTotal room.price_per_night x})).map
                  Reservation.reservation_id =
              h.reservations.map Reservation.reservation_id :=
            updateRes_id_map hfout
          have hfindmap : ∀ rn2 : String,
              findRoomL (updateRoom h.rooms r.room_number
                (fun x => {x with is_occupied := false})) rn2 =
              (findRoomL h.rooms rn2).map
                (fun x => if x.room_number == r.room_number then
                  {x with is_occupied := false} else x) :=
            fun rn2 => findRoomL_updateRoom (fun _ => rfl)
          have hnd := ids_pairwise_ne inv
          refine ⟨inv.next_pos, ?_, ?_, ?_, inv.guests_nodup, ?_, ?_, ?_, ?_⟩
          · obtain ⟨ks, hmap, hord, hbound⟩ := inv.ids
            exact ⟨ks, by rw [hmapid]; exact hmap, hord, hbound⟩
          · exact pairwise_noOverlap_updateRes (fun x => ⟨rfl, rfl, rfl⟩)
              inv.no_overlap
          · exact pairwise_ne_updateRoom (fun _ => rfl) inv.rooms_nodup
          · intro r2 hr2
            obtain ⟨y, hy, hyeq⟩ := mem_updateRes hr2
            have hrn : r2.room_number = y.room_number := by
              rw [hyeq]
              by_cases hx : (y.reservation_id == rid) = true <;> simp [hx]
            obtain ⟨rm0, hrm0⟩ := inv.room_exists y hy
            have hfound : findRoomL (updateRoom h.rooms r.room_number
                (fun x => {x with is_occupied := false})) y.room_number =
                some (if rm0.room_number == r.room_number then
                  {rm0 with is_occupied := false} else rm0) := by
              rw [hfindmap y.room_number, hrm0]
              rfl
            exact ⟨_, by rw [hrn]; exact hfound⟩
          · intro r2 hr2
            obtain ⟨y, hy, hyeq⟩ := mem_updateRes hr2
            have hgid : r2.guest_id = y.guest_id := by
              rw [hyeq]
              by_cases hx : (y.reservation_id == rid) = true <;> simp [hx]
            rw [hgid]
            exact inv.guest_exists y hy
          · intro r2 hr2 rm2 hrm2
            obtain ⟨y, hy, hyeq⟩ := mem_updateRes hr2
            have hfields : r2.room_number = y.room_number ∧
                r2.check_in_date = y.check_in_date ∧
                r2.check_out_date = y.check_out_date ∧
                r2.services_used = y.services_used := by
              rw [hyeq]
              by_cases hx : (y.reservation_id == rid) = true <;> simp [hx]
            obtain ⟨rm0, hrm0⟩ := inv.room_exists y hy
            rw [hfields.1, hfindmap y.room_number, hrm0] at hrm2
            have hprice : rm2.price_per_night = rm0.price_per_night := by
              injection hrm2 with hrm2
              rw [← hrm2]
              by_cases hx : (rm0.room_number == r.room_number) = true <;>
                simp [hx]
            by_cases hx : (y.reservation_id == rid) = true
            · have hyid : y.reservation_id = rid := by simpa using hx
              have hyr : y = r := mem_eq_of_findResL hnd hr hy hyid
              have htot : r2.total_charges = calcTotal room.price_per_night y := by
                rw [hyeq]
                simp [hx]
              have hrm0room : rm0 = room := by
                rw [hyr] at hrm0
                rw [hrm] at hrm0
                exact (Option.some.inj hrm0).symm
              rw [htot, hfields.2.1, hfields.2.2.1, hfields.2.2.2, hprice,
                hrm0room]
              unfold calcTotal
              rfl
            · have htot : r2.total_charges = y.total_charges := by
                rw [hyeq]
                simp [hx]
              rw [htot, hfields.2.1, hfields.2.2.1, hfields.2.2.2, hprice]
              exact inv.charges y hy rm0 hrm0
          · intro r2 hr2 hco
            obtain ⟨y, hy, hyeq⟩ := mem_updateRes hr2
            by_cases hx : (y.reservation_id == rid) = true
            · have hyid : y.reservation_id = rid := by simpa using hx
              have hyr : y = r := mem_eq_of_findResL hnd hr hy hyid
              have hrid : r.reservation_id = rid := hyr ▸ hyid
              rw [hyeq, hyr]
              simp [hrid, hin]
            · rw [hyeq] at hco ⊢
              simp only [hx, if_false] at hco ⊢
              exact inv.flags y hy hco

lemma inv_add_service (h : Hotel) (rid svc : String) (price : Rat)
    (inv : Inv h) : Inv (h.add_service rid svc price).1 := by
  unfold Hotel.add_service
  cases hr : findResL h.reservations rid with
  | none => simpa [hr] using inv
  | some r =>
    simp only [hr]
    have hfs : ∀ x : Reservation,
        (({x with
          services_used := x.services_used ++ [(svc, price)],
          total_charges := x.total_charges + price} :
            Reservation)).reservation_id = x.reservation_id := fun _ => rfl
    have hmapid : (updateRes h.reservations rid
          (fun x => {x with
            services_used := x.services_used ++ [(svc, price)],
            total_charges := x.total_charges + price})).map
            Reservation.reservation_id =
        h.reservations.map Reservation.reservation_id := updateRes_id_map hfs
    refine ⟨inv.next_pos, ?_, ?_, inv.rooms_nodup, inv.guests_nodup,
      ?_, ?_, ?_, ?_⟩
    · obtain ⟨ks, hmap, hord, hbound⟩ := inv.ids
      exact ⟨ks, by rw [hmapid]; exact hmap, hord, hbound⟩
    · exact pairwise_noOverlap_updateRes (fun x => ⟨rfl, rfl, rfl⟩)
        inv.no_overlap
    · intro r2 hr2
      obtain ⟨y, hy, hyeq⟩ := mem_updateRes hr2
      have hrn : r2.room_number = y.room_number := by
        rw [hyeq]
        by_cases hx : (y.reservation_id == rid) = true <;> simp [hx]
      rw [hrn]
      exact inv.room_exists y hy
    · intro r2 hr2
      obtain ⟨y, hy, hyeq⟩ := mem_updateRes hr2
      have hgid : r2.guest_id = y.guest_id := by
        rw [hyeq]
        by_cases hx : (y.reservation_id == rid) = true <;> simp [hx]
      rw [hgid]
      exact inv.guest_exists y hy
    · intro r2 hr2 rm2 hrm2
      obtain ⟨y, hy, hyeq⟩ := mem_updateRes hr2
      have hfields : r2.room_number = y.room_number ∧
          r2.check_in_date = y.check_in_date ∧
          r2.check_out_date = y.check_out_date := by
        rw [hyeq]
        by_cases hx : (y.reservation_id == rid) = true <;> simp [hx]
      rw [hfields.1] at hrm2
      by_cases hx : (y.reservation_id == rid) = true
      · have hserv : r2.services_used = y.services_used ++ [(svc, price)] := by
          rw [hyeq]
          simp [hx]
        have htot : r2.total_charges = y.total_charges + price := by
          rw [hyeq]
          simp [hx]
        rw [htot, hfields.2.1, hfields.2.2, hserv, sumPrices_append]
        have hch := inv.charges y hy rm2 hrm2
        rw [hch]
        ring
      · have hserv : r2.services_used = y.services_used := by
          rw [hyeq]
          simp [hx]
        have htot : r2.total_charges = y.total_charges := by
          rw [hyeq]
          simp [hx]
        rw [htot, hfields.2.1, hfields.2.2, hserv]
        exact inv.charges y hy rm2 hrm2
    · intro r2 hr2 hco
      obtain ⟨y, hy, hyeq⟩ := mem_updateRes hr2
      by_cases hx : (y.reservation_id == rid) = true
      · rw [hyeq] at hco ⊢
        simp only [hx, if_true] at hco ⊢
        exact inv.flags y hy hco
      · rw [hyeq] at hco ⊢
        simp only [hx, if_false] at hco ⊢
        exact inv.flags y hy hco

/-- Every reachable state satisfies the full invariant. -/
lemma reachable_inv : ∀ h : Hotel, Reachable h → Inv h := by
  intro h hreach
  induction hreach with
  | init name => exact inv_init name
  | step_add_room h0 rm _ ih => exact inv_add_room h0 rm ih
  | step_add_guest h0 g _ ih => exact inv_add_guest h0 g ih
  | step_make_reservation h0 gid rn ci co _ ih =>
    exact inv_make_reservation h0 gid rn ci co ih
  | step_check_in h0 rid _ ih => exact inv_check_in h0 rid ih
  | step_check_out h0 rid _ ih => exact inv_check_out h0 rid ih
  | step_add_service h0 rid svc price _ ih =>
    exact inv_add_service h0 rid svc price ih

lemma reachable_hotelB : Reachable hotelB :=
  Reachable.step_add_guest _ _
    (Reachable.step_add_room _ _ (Reachable.init "Grand Hotel"))

lemma reachable_hotelD : Reachable hotelD :=
  Reachable.step_make_reservation _ _ _ _ _
    (Reachable.step_make_reservation _ _ _ _ _ reachable_hotelB)

lemma reachable_hotelF : Reachable hotelF :=
  Reachable.step_add_service _ _ _ _
    (Reachable.step_make_reservation _ _ _ _ _ reachable_hotelB)

/-- C1: in every reachable state, two distinct reservations assigned to the
same room have non-overlapping half-open date intervals: the source's
overlap test `r1.check_in < r2.check_out ∧ r1.check_out > r2.check_in`
fails for every such pair. -/
theorem C1_reservations_never_overlap :
    ∀ h : Hotel, Reachable h →
    ∀ r1 ∈ h.reservations, ∀ r2 ∈ h.reservations,
    r1.reservation_id ≠ r2.reservation_id →
    r1.room_number = r2.room_number →
    ¬(r1.check_in_date < r2.check_out_date ∧
      r1.check_out_date > r2.check_in_date) := by
  intro h hreach r1 h1 r2 h2 hne hroom
  have inv := reachable_inv h hreach
  have hall := inv.no_overlap.forall (fun a b hab => noOverlap_symm hab)
  have hne2 : r1 ≠ r2 := fun hcon => hne (by rw [hcon])
  exact hall h1 h2 hne2 hroom

/-- C1 witness: the two reservations of `hotelD` (room "101", `[1, 5)` and
`[5, 6)`) do not overlap. -/
theorem C1_witness :
    ¬(resA.check_in_date < resB.check_out_date ∧
      resA.check_out_date > resB.check_in_date) := by
  have hfA : findResL hotelD.reservations "RES-1" = some resA := by rfl
  have hfB : findResL hotelD.reservations "RES-2" = some resB := by rfl
  exact C1_reservations_never_overlap hotelD reachable_hotelD resA
    (List.mem_of_find?_eq_some hfA) resB (List.mem_of_find?_eq_some hfB)
    (by decide) (by decide)

/-- C3: `total_charges` always equals room price times nights plus the sum
of service prices: it is an invariant of every reachable state, it is how
`make_reservation` initializes the field (with no services yet),
`add_service` adds exactly the price while appending the pair, and
`check_out` recomputes the same sum (`calcTotal`). -/
theorem C3_total_charges_accounting :
    (∀ h : Hotel, Reachable h →
      ∀ r ∈ h.reservations, ∀ rm : Room,
      findRoomL h.rooms r.room_number = some rm →
      r.total_charges = rm.price_per_night *
        ((r.check_out_date - r.check_in_date : Int) : Rat) +
        sumPrices r.services_used) ∧
    (∀ (h : Hotel) (gid rn : String) (ci co : Int) (r : Reservation),
      (h.make_reservation gid rn ci co).2 = .ok r →
      ∃ room, findRoomL h.rooms rn = some room ∧
        r.services_used = [] ∧
        r.total_charges = room.price_per_night * ((co - ci : Int) : Rat)) ∧
    (∀ (h : Hotel) (rid svc : String) (price : Rat) (r : Reservation),
      findResL h.reservations rid = some r →
      findResL (h.add_service rid svc price).1.reservations rid =
        some {r with
          services_used := r.services_used ++ [(svc, price)],
          total_charges := r.total_charges + price}) ∧
    (∀ (h : Hotel) (rid : String) (r : Reservation) (room : Room),
      findResL h.reservations rid = some r →
      r.is_checked_in = true → r.is_checked_out = false →
      findRoomL h.rooms r.room_number = some room →
      findResL (h.check_out rid).1.reservations rid =
        some {r with
          is_checked_out := true,
          total_charges := calcTotal room.price_per_night r}) := by
  refine ⟨?_, ?_, ?_, ?_⟩
  · intro h hreach r hr rm hrm
    exact (reachable_inv h hreach).charges r hr rm hrm
  · intro h gid rn ci co r heq
    unfold Hotel.make_reservation at heq
    cases hg : findGuestL h.guests gid with
    | none => rw [hg] at heq; cases heq
    | some g =>
      rw [hg] at heq
      cases hr : findRoomL h.rooms rn with
      | none => rw [hr] at heq; cases heq
      | some room =>
        rw [hr] at heq
        cases hocc : room.is_occupied with
        | true => simp [hocc] at heq
        | false =>
          cases hc : hasDateConflict h.reservations rn ci co with
          | true => simp [hocc, hc] at heq
          | false =>
            simp only [hocc, hc, Bool.false_eq_true, if_false] at heq
            injection heq with heq
            exact ⟨room, rfl, by rw [← heq], by rw [← heq]⟩
  · intro h rid svc price r hr
    unfold Hotel.add_service
    rw [hr]
    dsimp only
    exact findResL_updateRes_self (fun _ => rfl) hr
  · intro h rid r room hr hin hout hrm
    rw [check_out_ok hr hin hout hrm]
    dsimp only
    exact findResL_updateRes_self (fun _ => rfl) hr

/-- C3 witness: adding service "Breakfast" at 15 to the two-night
reservation of `hotelE` appends the pair and adds exactly 15, giving
`100 * 2 + 15 = 215`. -/
theorem C3_witness :
    findResL hotelF.reservations "RES-1" =
      some {resC with
        services_used := resC.services_used ++ [("Breakfast", 15)],
        total_charges := resC.total_charges + 15} ∧
    resC.total_charges + 15 = 215 :=
  ⟨C3_total_charges_accounting.2.2.1 hotelE "RES-1" "Breakfast" 15 resC
      (by rfl),
    by norm_num [resC]⟩

/-- C4: the reservation life cycle is strictly
Created → CheckedIn → CheckedOut: both operations fail with NotFound on an
unknown id; `check_in` fails with InvalidState once checked in and on
success sets `is_checked_in` and occupies the room; `check_out` fails with
InvalidState unless checked in and not yet checked out and on success sets
`is_checked_out`, frees the room and recomputes the charges; on a fresh
reservation the `check_in`-`check_out` pair succeeds exactly once each and
any repeat fails with InvalidState; `is_checked_out` implies
`is_checked_in` in every reachable state. -/
theorem C4_lifecycle :
    (∀ (h : Hotel) (rid : String), findResL h.reservations rid = none →
      h.check_in rid = (h, .error .notFound) ∧
      h.check_out rid = (h, .error .notFound)) ∧
    (∀ (h : Hotel) (rid : String) (r : Reservation),
      findResL h.reservations rid = some r → r.is_checked_in = true →
      h.check_in rid = (h, .error .invalidState)) ∧
    (∀ (h : Hotel) (rid : String) (r : Reservation),
      findResL h.reservations rid = some r → r.is_checked_in = false →
      (h.check_in rid).2 = .ok () ∧
      findResL (h.check_in rid).1.reservations rid =
        some {r with is_checked_in := true} ∧
      ∀ rm : Room, findRoomL h.rooms r.room_number = some rm →
        findRoomL (h.check_in rid).1.rooms r.room_number =
          some {rm with is_occupied := true}) ∧
    (∀ (h : Hotel) (rid : String) (r : Reservation),
      findResL h.reservations rid = some r → r.is_checked_in = false →
      h.check_out rid = (h, .error .invalidState)) ∧
    (∀ (h : Hotel) (rid : String) (r : Reservation),
      findResL h.reservations rid = some r → r.is_checked_in = true →
      r.is_checked_out = true → h.check_out rid = (h, .error .invalidState)) ∧
    (∀ (h : Hotel) (rid : String) (r : Reservation) (room : Room),
      findResL h.reservations rid = some r → r.is_checked_in = true →
      r.is_checked_out = false → findRoomL h.rooms r.room_number = some room →
      (h.check_out rid).2 = .ok () ∧
      findResL (h.check_out rid).1.reservations rid =
        some {r with
          is_checked_out := true,
          total_charges := calcTotal room.price_per_night r} ∧
      findRoomL (h.check_out rid).1.rooms r.room_number =
        some {room with is_occupied := false}) ∧
    (∀ (h : Hotel) (rid : String) (r : Reservation) (room : Room),
      findResL h.reservations rid = some r →
      r.is_checked_in = false → r.is_checked_out = false →
      findRoomL h.rooms r.room_number = some room →
      (h.check_in rid).2 = .ok () ∧
      ((h.check_in rid).1.check_in rid).2 = .error .invalidState ∧
      ((h.check_in rid).1.check_out rid).2 = .ok () ∧
      (((h.check_in rid).1.check_out rid).1.check_in rid).2 =
        .error .invalidState ∧
      (((h.check_in rid).1.check_out rid).1.check_out rid).2 =
        .error .invalidState) ∧
    (∀ h : Hotel, Reachable h → ∀ r ∈ h.reservations,
      r.is_checked_out = true → r.is_checked_in = true) := by
  have hfin : ∀ x : Reservation,
      (({x with is_checked_in := true} : Reservation)).reservation_id =
        x.reservation_id := fun _ => rfl
  have hgin : ∀ x : Room,
      (({x with is_occupied := true} : Room)).room_number = x.room_number :=
    fun _ => rfl
  have hgout : ∀ x : Room,
      (({x with is_occupied := false} : Room)).room_number = x.room_number :=
    fun _ => rfl
  refine ⟨?_, ?_, ?_, ?_, ?_, ?_, ?_, ?_⟩
  · intro h rid hr
    exact ⟨check_in_missing hr, check_out_missing hr⟩
  · intro h rid r hr hin
    exact check_in_already hr hin
  · intro h rid r hr hin
    rw [check_in_ok hr hin]
    refine ⟨rfl, ?_, ?_⟩
    · dsimp only
      exact findResL_updateRes_self hfin hr
    · intro rm hrm
      dsimp only
      exact findRoomL_updateRoom_self hgin hrm
  · intro h rid r hr hin
    exact check_out_not_checked_in hr hin
  · intro h rid r hr hin hout
    exact check_out_already hr hin hout
  · intro h rid r room hr hin hout hrm
    rw [check_out_ok hr hin hout hrm]
    refine ⟨rfl, ?_, ?_⟩
    · dsimp only
      exact findResL_updateRes_self (fun _ => rfl) hr
    · dsimp only
      exact findRoomL_updateRoom_self hgout hrm
  · intro h rid r room hr hin hout hrm
    have e1 := check_in_ok hr hin
    have hres1 : findResL (h.check_in rid).1.reservations rid =
        some {r with is_checked_in := true} := by
      rw [e1]
      dsimp only
      exact findResL_updateRes_self hfin hr
    have hroom1 : findRoomL (h.check_in rid).1.rooms r.room_number =
        some {room with is_occupied := true} := by
      rw [e1]
      dsimp only
      exact findRoomL_updateRoom_self hgin hrm
    have e2 := check_in_already hres1 (show ({r with is_checked_in := true} :
      Reservation).is_checked_in = true from rfl)
    have e3 := check_out_ok hres1
      (show ({r with is_checked_in := true} : Reservation).is_checked_in = true
        from rfl)
      (show ({r with is_checked_in := true} : Reservation).is_checked_out = false
        from hout)
      hroom1
    have hres3 : findResL ((h.check_in rid).1.check_out rid).1.reservations rid =
        some {({r with is_checked_in := true} : Reservation) with
          is_checked_out := true,
          total_charges := calcTotal
            ({room with is_occupied := true} : Room).price_per_night
            ({r with is_checked_in := true} : Reservation)} := by
      rw [e3]
      dsimp only
      apply findResL_updateRes_self _ hres1
      exact fun _ => rfl
    have e4 := check_in_already hres3 rfl
    have e5 := check_out_already hres3 rfl rfl
    exact ⟨by rw [e1], by rw [e2], by rw [e3], by rw [e4], by rw [e5]⟩
  · intro h hreach
    exact (reachable_inv h hreach).flags

/-- C4 witness: on the fresh reservation "RES-1" of `hotelE`, check-in
succeeds, a second check-in fails with InvalidState, check-out succeeds,
and both operations fail with InvalidState afterwards. -/
theorem C4_witness :
    (hotelE.check_in "RES-1").2 = .ok () ∧
    ((hotelE.check_in "RES-1").1.check_in "RES-1").2 = .error .invalidState ∧
    ((hotelE.check_in "RES-1").1.check_out "RES-1").2 = .ok () ∧
    (((hotelE.check_in "RES-1").1.check_out "RES-1").1.check_in "RES-1").2 =
      .error .invalidState ∧
    (((hotelE.check_in "RES-1").1.check_out "RES-1").1.check_out "RES-1").2 =
      .error .invalidState :=
  C4_lifecycle.2.2.2.2.2.2.1 hotelE "RES-1" resC room101
    (by rfl) (by decide) (by decide) (by rfl)

/-- C8: reservation ids are the strings `RES-{n}` drawn from the hotel's
counter, which starts at 1 and increments by one on every successful
`make_reservation`; consequently the ids of the reservations of any
reachable state arise from a strictly increasing list of counter values
below the current counter, and are pairwise distinct. -/
theorem C8_sequential_ids :
    (∀ name, (Hotel.init name).next_reservation_id = 1) ∧
    (∀ n, mkResId n = "RES-" ++ Nat.repr n) ∧
    (∀ (h : Hotel) (gid rn : String) (ci co : Int) (r : Reservation),
      (h.make_reservation gid rn ci co).2 = .ok r →
      r.reservation_id = mkResId h.next_reservation_id ∧
      (h.make_reservation gid rn ci co).1.next_reservation_id =
        h.next_reservation_id + 1) ∧
    (∀ h : Hotel, Reachable h → ∃ ks : List Nat,
      h.reservations.map Reservation.reservation_id = ks.map mkResId ∧
      ks.Pairwise (· < ·) ∧
      ∀ k ∈ ks, 1 ≤ k ∧ k < h.next_reservation_id) ∧
    (∀ h : Hotel, Reachable h →
      (h.reservations.map Reservation.reservation_id).Pairwise (· ≠ ·)) := by
  refine ⟨fun _ => rfl, fun _ => rfl, ?_, ?_, ?_⟩
  · intro h gid rn ci co r heq
    cases hg : findGuestL h.guests gid with
    | none => unfold Hotel.make_reservation at heq; rw [hg] at heq; cases heq
    | some g =>
      cases hr : findRoomL h.rooms rn with
      | none =>
        unfold Hotel.make_reservation at heq
        rw [hg, hr] at heq
        cases heq
      | some room =>
        cases hocc : room.is_occupied with
        | true =>
          unfold Hotel.make_reservation at heq
          rw [hg, hr] at heq
          simp [hocc] at heq
        | false =>
          cases hc : hasDateConflict h.reservations rn ci co with
          | true =>
            unfold Hotel.make_reservation at heq
            rw [hg, hr] at heq
            simp [hocc, hc] at heq
          | false =>
            have e := make_reservation_ok hg hr hocc hc
            rw [e] at heq ⊢
            injection heq with heq
            exact ⟨by rw [← heq], rfl⟩
  · intro h hreach
    exact (reachable_inv h hreach).ids
  · intro h hreach
    exact (List.pairwise_map).mpr (ids_pairwise_ne (reachable_inv h hreach))

/-- C8 witness: the first reservation of `hotelB` (counter value 1) gets id
`mkResId 1 = "RES-1"` and the counter moves to 2. -/
theorem C8_witness :
    (resA.reservation_id = mkResId hotelB.next_reservation_id ∧
      (hotelB.make_reservation "G1" "101" 1 5).1.next_reservation_id =
        hotelB.next_reservation_id + 1) ∧
    mkResId 1 = "RES-1" :=
  ⟨C8_sequential_ids.2.2.1 hotelB "G1" "101" 1 5 resA (by rfl), by decide⟩

/-! Lemmas for the persistence round trip. -/

lemma recToRes_resToRec (r : Reservation) : recToRes (resToRec r) = r := rfl

lemma foldl_dictInsertRoom (l : List Room) : ∀ acc : List Room,
    (∀ x ∈ l, acc.any (fun y => y.room_number == x.room_number) = false) →
    (l.map Room.room_number).Nodup →
    List.foldl dictInsertRoom acc l = acc ++ l := by
  induction l with
  | nil => intro acc _ _; simp
  | cons a t ih =>
    intro acc hdisj hnd
    simp only [List.map_cons, List.nodup_cons] at hnd
    simp only [List.foldl_cons]
    rw [dictInsertRoom_fresh (hdisj a (List.mem_cons_self a t))]
    rw [ih (acc ++ [a]) ?_ hnd.2]
    · simp
    · intro x hx
      rw [List.any_append]
      have h1 := hdisj x (List.mem_cons_of_mem a hx)
      have h2 : ([a].any fun y => y.room_number == x.room_number) = false := by
        simp only [List.any_cons, List.any_nil, Bool.or_false]
        have : a.room_number ≠ x.room_number := by
          intro hcon
          exact hnd.1 (hcon ▸ List.mem_map_of_mem Room.room_number hx)
        simpa using this
      rw [h1, h2]
      rfl

lemma foldl_dictInsertGuest (l : List Guest) : ∀ acc : List Guest,
    (∀ x ∈ l, acc.any (fun y => y.guest_id == x.guest_id) = false) →
    (l.map Guest.guest_id).Nodup →
    List.foldl dictInsertGuest acc l = acc ++ l := by
  induction l with
  | nil => intro acc _ _; simp
  | cons a t ih =>
    intro acc hdisj hnd
    simp only [List.map_cons, List.nodup_cons] at hnd
    simp only [List.foldl_cons]
    rw [dictInsertGuest_fresh (hdisj a (List.mem_cons_self a t))]
    rw [ih (acc ++ [a]) ?_ hnd.2]
    · simp
    · intro x hx
      rw [List.any_append]
      have h1 := hdisj x (List.mem_cons_of_mem a hx)
      have h2 : ([a].any fun y => y.guest_id == x.guest_id) = false := by
        simp only [List.any_cons, List.any_nil, Bool.or_false]
        have : a.guest_id ≠ x.guest_id := by
          intro hcon
          exact hnd.1 (hcon ▸ List.mem_map_of_mem Guest.guest_id hx)
        simpa using this
      rw [h1, h2]
      rfl

lemma loadResList_ok (guests : List Guest) (rooms : List Room) :
    ∀ (l : List Reservation) (acc : List Reservation),
    (∀ r ∈ l, (findGuestL guests r.guest_id).isSome = true) →
    (∀ r ∈ l, (findRoomL rooms r.room_number).isSome = true) →
    (∀ r ∈ l, acc.any (fun y => y.reservation_id == r.reservation_id) = false) →
    (l.map Reservation.reservation_id).Nodup →
    loadResList guests rooms (l.map resToRec) acc = .ok (acc ++ l) := by
  intro l
  induction l with
  | nil => intro acc _ _ _ _; simp [loadResList]
  | cons a t ih =>
    intro acc hg hr hdisj hnd
    simp only [List.map_cons, List.nodup_cons] at hnd
    simp only [List.map_cons, loadResList]
    obtain ⟨g, hgsome⟩ := Option.isSome_iff_exists.mp (hg a (List.mem_cons_self a t))
    obtain ⟨rm, hrsome⟩ := Option.isSome_iff_exists.mp (hr a (List.mem_cons_self a t))
    rw [show findGuestL guests (resToRec a).guest_id = some g from hgsome,
      show findRoomL rooms (resToRec a).room_number = some rm from hrsome]
    rw [recToRes_resToRec]
    rw [dictInsertRes_fresh (hdisj a (List.mem_cons_self a t))]
    rw [ih (acc ++ [a]) ?_ ?_ ?_ hnd.2]
    · simp
    · intro x hx
      exact hg x (List.mem_cons_of_mem a hx)
    · intro x hx
      exact hr x (List.mem_cons_of_mem a hx)
    · intro x hx
      rw [List.any_append]
      have h1 := hdisj x (List.mem_cons_of_mem a hx)
      have h2 : ([a].any fun y => y.reservation_id == x.reservation_id) = false := by
        simp only [List.any_cons, List.any_nil, Bool.or_false]
        have : a.reservation_id ≠ x.reservation_id := by
          intro hcon
          exact hnd.1 (hcon ▸
            List.mem_map_of_mem Reservation.reservation_id hx)
        simpa using this
      rw [h1, h2]
      rfl

lemma loadResList_refs (guests : List Guest) (rooms : List Room) :
    ∀ (recs : List ResRec) (acc resv : List Reservation),
    loadResList guests rooms recs acc = .ok resv →
    ∀ rec ∈ recs, (findGuestL guests rec.guest_id).isSome = true ∧
      (findRoomL rooms rec.room_number).isSome = true := by
  intro recs
  induction recs with
  | nil => intro acc resv _ rec hrec; cases hrec
  | cons a t ih =>
    intro acc resv heq rec hrec
    unfold loadResList at heq
    cases hg : findGuestL guests a.guest_id with
    | none => rw [hg] at heq; cases heq
    | some g =>
      rw [hg] at heq
      cases hr : findRoomL rooms a.room_number with
      | none => rw [hr] at heq; cases heq
      | some rm =>
        rw [hr] at heq
        cases List.mem_cons.mp hrec with
        | inl h =>
          subst h
          exact ⟨by rw [hg]; rfl, by rw [hr]; rfl⟩
        | inr h => exact ih _ resv heq rec h

lemma mem_foldl_dictInsertGuest (l : List Guest) : ∀ (acc : List Guest)
    (x : Guest), x ∈ List.foldl dictInsertGuest acc l → x ∈ acc ∨ x ∈ l := by
  induction l with
  | nil => intro acc x hx; exact Or.inl hx
  | cons a t ih =>
    intro acc x hx
    simp only [List.foldl_cons] at hx
    cases ih (dictInsertGuest acc a) x hx with
    | inr h => exact Or.inr (List.mem_cons_of_mem a h)
    | inl h =>
      unfold dictInsertGuest at h
      by_cases hdup : (acc.any fun y => y.guest_id == a.guest_id) = true
      · rw [if_pos hdup] at h
        obtain ⟨y, hy, hyeq⟩ := List.mem_map.mp h
        by_cases hk : (y.guest_id == a.guest_id) = true
        · rw [if_pos hk] at hyeq
          exact Or.inr (hyeq ▸ List.mem_cons_self a t)
        · rw [if_neg hk] at hyeq
          exact Or.inl (hyeq ▸ hy)
      · rw [if_neg hdup] at h
        cases List.mem_append.mp h with
        | inl h2 => exact Or.inl h2
        | inr h2 =>
          rw [List.mem_singleton] at h2
          exact Or.inr (h2 ▸ List.mem_cons_self a t)

lemma mem_foldl_dictInsertRoom (l : List Room) : ∀ (acc : List Room)
    (x : Room), x ∈ List.foldl dictInsertRoom acc l → x ∈ acc ∨ x ∈ l := by
  induction l with
  | nil => intro acc x hx; exact Or.inl hx
  | cons a t ih =>
    intro acc x hx
    simp only [List.foldl_cons] at hx
    cases ih (dictInsertRoom acc a) x hx with
    | inr h => exact Or.inr (List.mem_cons_of_mem a h)
    | inl h =>
      unfold dictInsertRoom updateRoom at h
      by_cases hdup : (acc.any fun y => y.room_number == a.room_number) = true
      · rw [if_pos hdup] at h
        obtain ⟨y, hy, hyeq⟩ := List.mem_map.mp h
        by_cases hk : (y.room_number == a.room_number) = true
        · rw [if_pos hk] at hyeq
          exact Or.inr (hyeq ▸ List.mem_cons_self a t)
        · rw [if_neg hk] at hyeq
          exact Or.inl (hyeq ▸ hy)
      · rw [if_neg hdup] at h
        cases List.mem_append.mp h with
        | inl h2 => exact Or.inl h2
        | inr h2 =>
          rw [List.mem_singleton] at h2
          exact Or.inr (h2 ▸ List.mem_cons_self a t)

/-- C7: the persistence contract round-trips.  For every well-formed state
(key-unique registries — automatic for Python dicts — whose reservations
reference a known guest and room), `load (save h)` succeeds and returns the
state unchanged: same name and counter, and rooms, guests and reservations
field for field, re-linked by id.  Conversely a successful `load` implies
every serialized reservation referenced a guest id and room number present
in the serialized registries, i.e. `load` fails with NotFound on a dangling
reference. -/
theorem C7_save_load_roundtrip :
    (∀ h : Hotel, WF h → Hotel.load (Hotel.save h) = .ok h) ∧
    (∀ (d : SaveData) (h2 : Hotel), Hotel.load d = .ok h2 →
      ∀ rec ∈ d.reservations,
        (∃ g ∈ d.guests, g.guest_id = rec.guest_id) ∧
        (∃ rm ∈ d.rooms, rm.room_number = rec.room_number)) := by
  constructor
  · intro h hwf
    obtain ⟨hrnd, hgnd, hresnd, hgref, hrref⟩ := hwf
    unfold Hotel.load Hotel.save
    dsimp only
    rw [foldl_dictInsertRoom h.rooms [] (by intro x _; rfl) hrnd,
      foldl_dictInsertGuest h.guests [] (by intro x _; rfl) hgnd]
    simp only [List.nil_append]
    rw [loadResList_ok h.guests h.rooms h.reservations [] hgref hrref
      (by intro x _; rfl) hresnd]
    rfl
  · intro d h2 hload rec hrec
    unfold Hotel.load at hload
    dsimp only at hload
    cases hl : loadResList (List.foldl dictInsertGuest [] d.guests)
        (List.foldl dictInsertRoom [] d.rooms) d.reservations [] with
    | error e => rw [hl] at hload; cases hload
    | ok resv =>
      have hrefs := loadResList_refs _ _ d.reservations [] resv hl rec hrec
      constructor
      · obtain ⟨g, hgsome⟩ := Option.isSome_iff_exists.mp hrefs.1
        have hmem := List.mem_of_find?_eq_some hgsome
        have hkey : g.guest_id = rec.guest_id := by
          have := List.find?_some hgsome
          simpa using this
        cases mem_foldl_dictInsertGuest d.guests [] g hmem with
        | inl hcon => cases hcon
        | inr hmem2 => exact ⟨g, hmem2, hkey⟩
      · obtain ⟨rm, hrsome⟩ := Option.isSome_iff_exists.mp hrefs.2
        have hmem := List.mem_of_find?_eq_some hrsome
        have hkey : rm.room_number = rec.room_number := by
          have := List.find?_some hrsome
          simpa using this
        cases mem_foldl_dictInsertRoom d.rooms [] rm hmem with
        | inl hcon => cases hcon
        | inr hmem2 => exact ⟨rm, hmem2, hkey⟩

/-- C7 witness: saving and re-loading `hotelD` (one room, one guest, two
reservations) reproduces the state exactly. -/
theorem C7_witness : Hotel.load (Hotel.save hotelD) = .ok hotelD :=
  C7_save_load_roundtrip.1 hotelD
    ⟨by decide, by decide, by decide, by decide, by decide⟩

end HotelMS
